import Mathlib

set_option maxRecDepth 8000
set_option maxHeartbeats 1000000

/-!
Shallow embedding of the scene actor-table exporter
(src/fast64_internal/z64/exporter/scene/actors.py): transition actors,
entrance actors and the spawn table, their construction from a scene graph,
their serialization to C-like text and the reverse parser.

Python strings are modelled as Lean Strings; the Python string operations
used by the source (split, replace, removeprefix, removesuffix, substring
test, join) are re-implemented below on character lists with Python's exact
semantics.  Machine floats never reach the observable fields: the external
transform resolver hands the exporter integer binary-angle components and
integer positions, and the one float computation (rot * (180 / 0x8000)
formatted with %.3f) is exact in IEEE double for 16-bit inputs, so it is
modelled with exact rational rounding (round half to even).
-/

/-- The two brace characters, kept out of string literals. -/
def lbrace : Char := Char.ofNat 123

/-- Closing brace character. -/
def rbrace : Char := Char.ofNat 125

/-- Python str.split with a non-empty separator, on character lists, with
explicit recursion fuel so the kernel can evaluate it (any fuel above the
input length computes the same value, see pySplitF_irrel).  Matches
Python: the separator occurrences are scanned left to right and
non-overlapping; a trailing separator yields a trailing empty chunk. -/
def pySplitF (sep : List Char) : Nat → List Char → List (List Char)
  | 0, s => [s]
  | _ + 1, [] => [[]]
  | fuel + 1, c :: rest =>
    if sep.isPrefixOf (c :: rest) then
      [] :: pySplitF sep fuel (rest.drop (sep.length - 1))
    else
      match pySplitF sep fuel rest with
      | [] => [[c]]
      | chunk :: more => (c :: chunk) :: more

/-- Python str.split (see pySplitF). -/
def pySplitL (sep s : List Char) : List (List Char) := pySplitF sep (s.length + 1) s

/-- Python str.replace (all non-overlapping occurrences, left to right),
with evaluation fuel as in pySplitF. -/
def pyReplaceF (old nw : List Char) : Nat → List Char → List Char
  | 0, s => s
  | _ + 1, [] => []
  | fuel + 1, c :: rest =>
    if old.isPrefixOf (c :: rest) then
      nw ++ pyReplaceF old nw fuel (rest.drop (old.length - 1))
    else
      c :: pyReplaceF old nw fuel rest

/-- Python str.replace (see pyReplaceF). -/
def pyReplaceL (old nw s : List Char) : List Char := pyReplaceF old nw (s.length + 1) s

/-- Python substring test (the `in` operator). -/
def pyContainsL (pat : List Char) : List Char → Bool
  | [] => pat.isPrefixOf []
  | c :: rest => pat.isPrefixOf (c :: rest) || pyContainsL pat rest

/-- Python `for p in params: if p == "": params.remove(p)`: iteration by a
plain index over the mutated list, so each removal shifts the successor of
the removed element under the cursor and it is skipped. `remove` deletes
the first element equal to the cursor value, i.e. the first empty string.
Fuel as in pySplitF (any fuel above length - index computes the value). -/
def pyRemoveEmptiesF : Nat → List String → Nat → List String
  | 0, l, _ => l
  | fuel + 1, l, i =>
    if h : i < l.length then
      if l.get ⟨i, h⟩ = "" then
        pyRemoveEmptiesF fuel (l.erase "") (i + 1)
      else
        pyRemoveEmptiesF fuel l (i + 1)
    else l

/-- The empty-field removal pass of the parser (see pyRemoveEmptiesF). -/
def pyRemoveEmpties (l : List String) : List String :=
  pyRemoveEmptiesF (l.length + 1) l 0

/-- Python str.split on Strings. -/
def pySplitS (sep s : String) : List String := (pySplitL sep.data s.data).map String.mk

/-- Python str.replace on Strings. -/
def pyReplaceS (old nw s : String) : String := String.mk (pyReplaceL old.data nw.data s.data)

/-- Python str.removeprefix. -/
def pyRemovePreS (p s : String) : String :=
  String.mk (if p.data.isPrefixOf s.data then s.data.drop p.data.length else s.data)

/-- Python str.removesuffix. -/
def pyRemoveSufS (p s : String) : String :=
  String.mk (if p.data.isSuffixOf s.data then s.data.take (s.data.length - p.data.length) else s.data)

/-- Python substring test on Strings. -/
def pyContainsS (pat s : String) : Bool := pyContainsL pat.data s.data

/-- Python sep.join(list). -/
def pyJoin (sep : String) : List String → String
  | [] => ""
  | [x] => x
  | x :: y :: xs => x ++ sep ++ pyJoin sep (y :: xs)

/-- Python f-string left-justified pad to width 30 (the fixed comment width). -/
def padTo30 (s : String) : String :=
  s ++ String.mk (List.replicate (30 - s.length) ' ')

/-- Modelled from the spec: the shared indentation unit used by all emitted
rows (repository utility constant, not under src/): four spaces. -/
def indent : String := "    "

/-- Round num/den (den > 0) to the nearest integer, ties to even: the
rounding used by Python's %.3f on an exactly representable value. -/
def roundHalfEvenQ (num den : Int) : Int :=
  let q := Int.fdiv num den
  let r := Int.fmod num den
  if 2 * r < den then q
  else if den < 2 * r then q + 1
  else if q % 2 = 0 then q else q + 1

/-- Zero-pad a fractional part to three digits. -/
def pad3 (n : Nat) : String :=
  (if n < 10 then "00" else if n < 100 then "0" else "") ++ toString n

/-- The Python expression f-string value (r * (180 / 0x8000)):.3f for an
integer binary-angle component r.  180/0x8000 = 45 * 2^-13 and r is a
16-bit integer, so the double product is exact and %.3f rounds the exact
rational r*45/8192 to three decimals, half to even; a negative value that
rounds to zero prints as -0.000 exactly as Python does. -/
def fmt3 (r : Int) : String :=
  let milli := roundHalfEvenQ (r * 5625) 1024
  let a := milli.natAbs
  (if r < 0 then "-" else "") ++ toString (a / 1000) ++ "." ++ pad3 (a % 1000)

/-- The binary-angle expression emitted for one converted rotation component. -/
def degStr (r : Int) : String := "DEG_TO_BINANG(" ++ fmt3 r ++ ")"

/-- Whitespace characters stripped by Python's int(). -/
def isWs (c : Char) : Bool := c = ' ' || c = '\t' || c = '\n' || c = '\r'

/-- Decimal digit value. -/
def digitVal (c : Char) : Option Nat :=
  if '0' ≤ c && c ≤ '9' then some (c.toNat - 48) else none

/-- Hexadecimal digit value. -/
def hexVal (c : Char) : Option Nat :=
  if '0' ≤ c && c ≤ '9' then some (c.toNat - 48)
  else if 'a' ≤ c && c ≤ 'f' then some (c.toNat - 87)
  else if 'A' ≤ c && c ≤ 'F' then some (c.toNat - 55)
  else none

/-- Accumulate digits in a base; none on the first non-digit. -/
def parseDigitsGo (base : Nat) (f : Char → Option Nat) (acc : Nat) : List Char → Option Nat
  | [] => some acc
  | c :: rest =>
    match f c with
    | some d => parseDigitsGo base f (acc * base + d) rest
    | none => none

/-- Parse a non-empty digit string in a base. -/
def parseDigits (base : Nat) (f : Char → Option Nat) (l : List Char) : Option Nat :=
  if l = [] then none else parseDigitsGo base f 0 l

/-- Strip surrounding whitespace from a character list. -/
def stripWs (l : List Char) : List Char :=
  ((l.dropWhile isWs).reverse.dropWhile isWs).reverse

/-- Modelled from the spec: the repository's numeric field parser
`hexOrDecInt` (utility helper not under src/): a token containing "0x" is
read as hexadecimal, any other as decimal, surrounding whitespace and a
sign are tolerated, and anything else is a fatal parse failure. -/
def hexOrDecInt (s : String) : Option Int :=
  let t := stripWs s.data
  let (neg, u) :=
    match t with
    | '-' :: r => (true, r)
    | '+' :: r => (false, r)
    | _ => (false, t)
  let v :=
    if pyContainsL ['0', 'x'] u || pyContainsL ['0', 'X'] u then
      match u with
      | '0' :: 'x' :: r => parseDigits 16 hexVal r
      | '0' :: 'X' :: r => parseDigits 16 hexVal r
      | _ => none
    else
      parseDigits 10 digitVal u
  match v with
  | some n => some (if neg then -(n : Int) else (n : Int))
  | none => none

/-- Modelled from the spec: the expression evaluator `getEvalParams`
(repository utility not under src/), restricted to the single form the
parser feeds it: a binary-angle expression DEG_TO_BINANG(d) is evaluated
numerically (degree value times 0x8000/180, rounded to the nearest
integer, reduced to 16 bits) and printed as a hexadecimal literal; any
other input is returned unchanged. -/
def getEvalParams (s : String) : String :=
  let t := s.data
  let pre := "DEG_TO_BINANG(".data
  if pre.isPrefixOf t && t.getLast? = some ')' then
    let inner := (t.drop pre.length).dropLast
    let (neg, u) :=
      match inner with
      | '-' :: r => (true, r)
      | _ => (false, inner)
    let parts := pySplitL ['.'] u
    let parsed :=
      match parts with
      | [a] => match parseDigits 10 digitVal a with
               | some n => some ((n : Int), (1 : Int))
               | none => none
      | [a, b] =>
        match parseDigits 10 digitVal a, parseDigits 10 digitVal b with
        | some n, some f => some ((n * 10 ^ b.length + f : Int), (10 ^ b.length : Int))
        | _, _ => none
      | _ => none
    match parsed with
    | some (num, den) =>
      let sn := if neg then -num else num
      let binang := roundHalfEvenQ (sn * 0x8000) (den * 180)
      "0x" ++ String.mk (Nat.toDigits 16 (binang.toNat % 0x10000))
    | none => s
  else s

/-- A converted 3-component integer vector (position or binary-angle
rotation) as delivered by the external transform resolver. -/
structure Vec3i where
  x : Int
  y : Int
  z : Int
deriving DecidableEq, Repr

/-- The three components in order, as Python iterates the tuple. -/
def Vec3i.toList (v : Vec3i) : List Int := [v.x, v.y, v.z]

/-- Base Actor record (the repository's Actor dataclass, fields as read and
written by this module: display name, actor-type token, converted position,
rotation expression text and the parameter token). -/
structure Actor where
  name : String := ""
  id : String := ""
  pos : Vec3i := ⟨0, 0, 0⟩
  rot : String := ""
  params : String := ""
deriving DecidableEq, Repr

/-- TransitionActor dataclass: Actor plus the paired room/camera fields,
all unset (None) until assigned. -/
structure TransitionActor extends Actor where
  isRoomTransition : Option Bool := none
  roomFrom : Option Int := none
  roomTo : Option Int := none
  cameraFront : Option String := none
  cameraBack : Option String := none
deriving DecidableEq, Repr

/-- EntranceActor dataclass: Actor plus room index and spawn slot. -/
structure EntranceActor extends Actor where
  roomIndex : Option Int := none
  spawnIndex : Option Nat := none
deriving DecidableEq, Repr

/-- Python rendering of an optional int field (None prints as "None"). -/
def optIntS : Option Int → String
  | some i => toString i
  | none => "None"

/-- Python rendering of an optional nat field. -/
def optNatS : Option Nat → String
  | some n => toString n
  | none => "None"

/-- Python rendering of an optional string field. -/
def optStrS : Option String → String
  | some s => s
  | none => "None"

/-- The body of one serialized transition actor row, from the opening brace
on: the room/camera descriptor, actor id, rounded position triple, rotation
expression and parameters, each on its own line behind a fixed-width
comment, comma-separated, closed by an indented brace and a comma.
Positions are integers here, so Python's round() is the identity. -/
def TransitionActor.entryBody (a : TransitionActor) : String :=
  let roomData := String.mk [lbrace] ++ " " ++
    pyJoin ", " [optIntS a.roomFrom ++ ", " ++ optStrS a.cameraFront,
                 optIntS a.roomTo ++ ", " ++ optStrS a.cameraBack] ++
    " " ++ String.mk [rbrace]
  let posData := String.mk [lbrace] ++ " " ++
    pyJoin ", " [toString a.pos.x, toString a.pos.y, toString a.pos.z] ++
    " " ++ String.mk [rbrace]
  let actorInfos := [roomData, a.id, posData, a.rot, a.params]
  let infoDescs := ["Room & Cam Index (Front, Back)", "Actor ID", "Position",
                    "Rotation Y", "Parameters"]
  String.mk [lbrace] ++ "\n" ++
  pyJoin ",\n" (List.zipWith
    (fun desc info => indent ++ indent ++ "/* " ++ padTo30 desc ++ " */ " ++ info)
    infoDescs actorInfos) ++
  "\n" ++ indent ++ String.mk [rbrace] ++ ",\n"

/-- TransitionActor.getEntryC: one table row, preceded by a name comment
line (and the row indent) exactly when the display name is non-empty. -/
def TransitionActor.getEntryC (a : TransitionActor) : String :=
  (if a.name != "" then indent ++ "// " ++ a.name ++ "\n" ++ indent else "") ++
  a.entryBody

/-- A header/source pair (the CData value the exporter fills in). -/
structure CData where
  header : String := ""
  source : String := ""
deriving DecidableEq, Repr

/-- SceneTransitionActors table. -/
structure SceneTransitionActors where
  name : String
  entries : List TransitionActor
deriving DecidableEq, Repr

/-- SceneTransitionActors.getCmd: the one-line invocation command. -/
def SceneTransitionActors.getCmd (t : SceneTransitionActors) : String :=
  indent ++ "SCENE_CMD_TRANSITION_ACTOR_LIST(" ++ toString t.entries.length ++
    ", " ++ t.name ++ "),\n"

/-- SceneTransitionActors.getC: extern declaration and array definition. -/
def SceneTransitionActors.getC (t : SceneTransitionActors) : CData :=
  let listName := "TransitionActorEntry " ++ t.name
  { header := "extern " ++ listName ++ "[];\n"
    source := listName ++ "[]" ++ " = " ++ String.mk [lbrace] ++ "\n" ++
      pyJoin "\n" (t.entries.map TransitionActor.getEntryC) ++
      String.mk [rbrace] ++ ";\n\n" }

/-- One row of SceneTransitionActors.from_data: strip all braces, split on
commas, run the Python empty-field removal pass, assert exactly ten fields,
then read the fields positionally (pos and the two room indices through
hexOrDecInt, rot through the expression evaluator when it uses the
binary-angle form) and rebuild an entry whose name is the "(unset)"
placeholder and whose isRoomTransition is recomputed as roomFrom != roomTo. -/
def parseTransEntry (entry : String) : Except String TransitionActor :=
  let ps := pyRemoveEmpties (pySplitS ","
    (pyReplaceS (String.mk [rbrace]) "" (pyReplaceS (String.mk [lbrace]) "" entry)))
  if ps.length = 10 then
    match hexOrDecInt (ps.getD 5 ""), hexOrDecInt (ps.getD 6 ""), hexOrDecInt (ps.getD 7 ""),
          hexOrDecInt (ps.getD 0 ""), hexOrDecInt (ps.getD 2 "") with
    | some px, some py, some pz, some rf, some rt =>
      Except.ok
        { name := "(unset)"
          id := ps.getD 4 ""
          pos := ⟨px, py, pz⟩
          rot := if pyContainsS "DEG_TO_BINANG" (ps.getD 8 "") then
                   getEvalParams (ps.getD 8 "")
                 else ps.getD 8 ""
          params := ps.getD 9 ""
          isRoomTransition := some (rf != rt)
          roomFrom := some rf
          roomTo := some rt
          cameraFront := some (ps.getD 1 "")
          cameraBack := some (ps.getD 3 "") }
    | _, _, _, _, _ => Except.error "ValueError: invalid literal for int()"
  else Except.error "AssertionError: len(params) == 10"

/-- The row loop of from_data: empty fragments are skipped, the first
failing row aborts the whole parse. -/
def parseTransEntries : List String → Except String (List TransitionActor)
  | [] => Except.ok []
  | e :: rest =>
    if e = "" then parseTransEntries rest
    else
      match parseTransEntry e with
      | Except.error err => Except.error err
      | Except.ok a =>
        match parseTransEntries rest with
        | Except.error err => Except.error err
        | Except.ok l => Except.ok (a :: l)

/-- SceneTransitionActors.from_data: split the raw text into row fragments
under one of the two delimiter conventions, parse each fragment, and
return a table named "(unset)". -/
def SceneTransitionActors.from_data (raw_data : String) (not_zapd_assets : Bool) :
    Except String SceneTransitionActors :=
  let entries :=
    if not_zapd_assets then
      pySplitS ("," ++ String.mk [rbrace] ++ "," ++ String.mk [lbrace])
        (pyRemoveSufS ("," ++ String.mk [rbrace] ++ ",")
          (pyRemovePreS (String.mk [lbrace]) raw_data))
    else
      pySplitS (String.mk [rbrace] ++ ",") raw_data
  match parseTransEntries entries with
  | Except.error e => Except.error e
  | Except.ok l => Except.ok ⟨"(unset)", l⟩

/-- EntranceActor.getEntryC: the two-field spawn row. -/
def EntranceActor.getEntryC (a : EntranceActor) : String :=
  indent ++ String.mk [lbrace] ++ " " ++ optNatS a.spawnIndex ++ ", " ++
    optIntS a.roomIndex ++ " " ++ String.mk [rbrace] ++ ",\n"

/-- SceneEntranceActors table. -/
structure SceneEntranceActors where
  name : String
  entries : List EntranceActor
deriving DecidableEq, Repr

/-- SceneEntranceActors.getCmd: the spawn list command, with the NULL name
sentinel when the table is empty. -/
def SceneEntranceActors.getCmd (t : SceneEntranceActors) : String :=
  let name := if t.entries.length > 0 then t.name else "NULL"
  indent ++ "SCENE_CMD_SPAWN_LIST(" ++ toString t.entries.length ++ ", " ++
    name ++ "),\n"

/-- SceneSpawns table (shares entrance entries). -/
structure SceneSpawns where
  name : String
  entries : List EntranceActor
deriving DecidableEq, Repr

/-- SceneSpawns.getCmd: the entrance list command, NULL sentinel when empty. -/
def SceneSpawns.getCmd (t : SceneSpawns) : String :=
  indent ++ "SCENE_CMD_ENTRANCE_LIST(" ++
    (if t.entries.length > 0 then t.name else "NULL") ++ "),\n"

/-- SceneSpawns.getC: the spawn array with its header comment. -/
def SceneSpawns.getC (t : SceneSpawns) : CData :=
  let listName := "Spawn " ++ t.name
  { header := "extern " ++ listName ++ "[];\n"
    source := listName ++ "[]" ++ " = " ++ String.mk [lbrace] ++ "\n" ++
      (indent ++ "// " ++ String.mk [lbrace] ++ " Spawn Actor List Index, Room Index " ++
        String.mk [rbrace] ++ "\n") ++
      String.join (t.entries.map EntranceActor.getEntryC) ++
      String.mk [rbrace] ++ ";\n\n" }

/-- The per-scene global inputs the builders read besides the scene graph:
the new-actor-panel flag (a host scene setting) and the actor identity
resolver (game_data actor name by id), both external collaborators. -/
structure Flags where
  use_new_actor_panel : Bool
  actorNames : String → String

/-- OOTActorProperty as read here: the header-visibility predicate (the
result of Utility.isCurrentHeaderValid on its headerSettings), the actor id
token and the custom/typed overrides. -/
structure OOTActorProperty where
  headerValidAt : Nat → Bool
  actor_id : String
  actor_id_custom : String
  params : String
  params_custom : String

/-- ootTransitionActorProperty as read here.  The fromRoom/toRoom object
references are modelled by the only field the code reads from them, the
referenced room's ootRoomHeader.roomIndex; the two camera properties carry
the value Utility.getPropValue resolves. -/
structure TransitionActorProperty where
  actor : OOTActorProperty
  isRoomTransition : Bool
  fromRoom : Option Int
  toRoom : Option Int
  cameraTransitionFront : String
  cameraTransitionBack : String

/-- ootEntranceProperty as read here (tiedRoom modelled by its room index). -/
structure EntranceProperty where
  actor : OOTActorProperty
  customActor : Bool
  tiedRoom : Option Int
  spawnIndex : Nat

/-- The payload of one scene-graph object: a Room empty (with its room
index), a Transition Actor empty or an Entrance empty (each with its
property block and the converted transform the external resolver yields
for it), or any other object. -/
inductive ObjData where
  | room (roomIndex : Int)
  | transMarker (prop : TransitionActorProperty) (conv : Vec3i × Vec3i)
  | entMarker (prop : EntranceProperty) (conv : Vec3i × Vec3i)
  | other

/-- A scene-graph object: a unique object identity (Python objects are
dict keys by identity), its payload and its children. -/
inductive SObj where
  | node (uid : Nat) (data : ObjData) (children : List SObj)

/-- Object identity. -/
def SObj.uid : SObj → Nat
  | .node u _ _ => u

mutual
/-- Blender's children_recursive: all descendants, depth first. -/
def childrenRecursive : SObj → List SObj
  | .node _ _ cs => childrenRecursiveL cs
/-- Descendant traversal of a child list. -/
def childrenRecursiveL : List SObj → List SObj
  | [] => []
  | c :: cs => c :: (childrenRecursive c ++ childrenRecursiveL cs)
end

/-- The transition marker payload of an object, when it is one. -/
def transPropOf : SObj → Option (TransitionActorProperty × (Vec3i × Vec3i))
  | .node _ (.transMarker p c) _ => some (p, c)
  | _ => none

/-- The entrance marker payload of an object, when it is one. -/
def entPropOf : SObj → Option (EntranceProperty × (Vec3i × Vec3i))
  | .node _ (.entMarker p c) _ => some (p, c)
  | _ => none

/-- Whether an object is a Room empty. -/
def isRoomObj : SObj → Bool
  | .node _ (.room _) _ => true
  | _ => false

/-- The room index of a Room empty. -/
def roomIdxOf : SObj → Int
  | .node _ (.room i) _ => i
  | _ => 0

/-- getObjectList(sceneObj.children_recursive, "EMPTY", "Room"). -/
def roomsOf (scene : SObj) : List SObj :=
  (childrenRecursive scene).filter isRoomObj

/-- getObjectList(sceneObj.children_recursive, "EMPTY", "Transition Actor"). -/
def transMarkers (scene : SObj) : List SObj :=
  (childrenRecursive scene).filter (fun o => (transPropOf o).isSome)

/-- getObjectList(sceneObj.children_recursive, "EMPTY", "Entrance"). -/
def entMarkers (scene : SObj) : List SObj :=
  (childrenRecursive scene).filter (fun o => (entPropOf o).isSome)

/-- First-match association lookup keyed by object identity; entries are
prepended, so the first match is the most recent write, exactly a Python
dict assignment's last-write-wins. -/
def lookupA {α : Type} : List (Nat × α) → Nat → Option α
  | [], _ => none
  | (k, v) :: rest, q => if k = q then some v else lookupA rest q

/-- The transition markers among a room's descendants. -/
def roomTransChildren (r : SObj) : List SObj :=
  (childrenRecursive r).filter (fun c => (transPropOf c).isSome)

/-- The actorToRoom mapping of SceneTransitionActors.new: for every room,
every transition marker among its descendants is mapped to that room,
later rooms overwriting earlier ones. -/
def transRoomMap (scene : SObj) : List (Nat × SObj) :=
  (roomsOf scene).foldl
    (fun m r => (roomTransChildren r).foldl (fun m c => (SObj.uid c, r) :: m) m)
    []

/-- The sort key of a transition marker: the room index of its owning room
(ill-keyed markers would raise KeyError in Python; the builder guards that
every marker is mapped before sorting). -/
def transKeyM (m : List (Nat × SObj)) (o : SObj) : Int :=
  match lookupA m o.uid with
  | some r => roomIdxOf r
  | none => 0

/-- Stable insertion into a sorted list: the new element goes before the
first strictly-later element, after equal keys. -/
def insertK {α : Type} (le : α → α → Bool) (x : α) : List α → List α
  | [] => [x]
  | y :: ys => if le x y then x :: y :: ys else y :: insertK le x ys

/-- Stable sort by a boolean order: extensionally the unique stable sort,
hence exactly Python's list.sort with a key function. -/
def isortK {α : Type} (le : α → α → Bool) : List α → List α
  | [] => []
  | x :: xs => insertK le x (isortK le xs)

/-- isCurrentHeaderValid and the None-type skip: a marker participates when
its header settings accept the requested header and its actor id is not
the "None" sentinel. -/
def validA (a : OOTActorProperty) (hIdx : Nat) : Bool :=
  a.headerValidAt hIdx && a.actor_id != "None"

/-- The resolved display name: the actor database name with the embedded
" - <id without ACTOR_>" suffix removed; "Custom Actor" for custom ids. -/
def resolveActorName (actorNames : String → String) (actor_id : String) : String :=
  if actor_id != "Custom" then
    pyReplaceS (" - " ++ pyRemovePreS "ACTOR_" actor_id) "" (actorNames actor_id)
  else "Custom Actor"

/-- The per-marker construction of one TransitionActor inside
SceneTransitionActors.new: a room-crossing marker reads its explicit
from/to room references and fails when either is unset, otherwise both
indices are the owning room's; then every Actor field is assigned exactly
as the source does (note isRoomTransition is never assigned). -/
def mkTransitionActor (flags : Flags) (owningIdx : Int)
    (p : TransitionActorProperty) (conv : Vec3i × Vec3i) :
    Except String TransitionActor :=
  match (if p.isRoomTransition then
           match p.fromRoom, p.toRoom with
           | some f, some t => Except.ok (f, t)
           | _, _ =>
             Except.error "ERROR: Missing room empty object assigned to transition."
         else Except.ok (owningIdx, owningIdx)) with
  | Except.error e => Except.error e
  | Except.ok (fromIndex, toIndex) =>
    Except.ok
      { id := if p.actor.actor_id == "Custom" then p.actor.actor_id_custom
              else p.actor.actor_id
        name := resolveActorName flags.actorNames p.actor.actor_id
        pos := conv.1
        rot := degStr conv.2.y
        params := if flags.use_new_actor_panel && (p.actor.actor_id != "Custom") then
                    p.actor.params
                  else p.actor.params_custom
        isRoomTransition := none
        roomFrom := some fromIndex
        cameraFront := some p.cameraTransitionFront
        roomTo := some toIndex
        cameraBack := some p.cameraTransitionBack }

/-- The entry loop of SceneTransitionActors.new over the sorted marker
list: invalid markers are silently skipped, the first failing entry aborts
the build, entries keep the sorted order. -/
def buildTransEntries (flags : Flags) (hIdx : Nat) (m : List (Nat × SObj)) :
    List SObj → Except String (List TransitionActor)
  | [] => Except.ok []
  | o :: rest =>
    match transPropOf o with
    | none => buildTransEntries flags hIdx m rest
    | some (p, conv) =>
      if validA p.actor hIdx then
        match mkTransitionActor flags (transKeyM m o) p conv with
        | Except.error e => Except.error e
        | Except.ok a =>
          match buildTransEntries flags hIdx m rest with
          | Except.error e => Except.error e
          | Except.ok l => Except.ok (a :: l)
      else buildTransEntries flags hIdx m rest

/-- SceneTransitionActors.new: build the owning-room mapping, sort all
transition markers by owning-room index (Python computes every sort key
first, so a marker outside every room raises KeyError there), then build
the entries in sorted order. -/
def SceneTransitionActors.new (name : String) (scene : SObj) (flags : Flags)
    (headerIndex : Nat) : Except String SceneTransitionActors :=
  let m := transRoomMap scene
  let ms := transMarkers scene
  if ms.all (fun o => (lookupA m o.uid).isSome) then
    match buildTransEntries flags headerIndex m
        (isortK (fun a b => decide (transKeyM m a ≤ transKeyM m b)) ms) with
    | Except.error e => Except.error e
    | Except.ok entries => Except.ok ⟨name, entries⟩
  else Except.error "KeyError: transition actor is not a descendant of any room"

/-- The per-marker construction of one EntranceActor inside
SceneEntranceActors.new, given the tied room's index. -/
def mkEntranceActor (flags : Flags) (p : EntranceProperty) (conv : Vec3i × Vec3i)
    (ri : Int) : EntranceActor :=
  { name := resolveActorName flags.actorNames p.actor.actor_id
    id := if !p.customActor then "ACTOR_PLAYER" else p.actor.actor_id_custom
    pos := conv.1
    rot := pyJoin ", " (conv.2.toList.map degStr)
    params := if flags.use_new_actor_panel && !p.customActor then p.actor.params
              else p.actor.params_custom
    roomIndex := some ri
    spawnIndex := some p.spawnIndex }

/-- The collection loop of SceneEntranceActors.new: valid markers are
keyed by spawn index in encounter order; a marker with no tied room fails,
a spawn index already collected fails naming the repeated index. -/
def collectEnt (flags : Flags) (hIdx : Nat) :
    List SObj → List (Nat × EntranceActor) → Except String (List (Nat × EntranceActor))
  | [], acc => Except.ok acc
  | o :: rest, acc =>
    match entPropOf o with
    | none => collectEnt flags hIdx rest acc
    | some (p, conv) =>
      if validA p.actor hIdx then
        match p.tiedRoom with
        | none => Except.error "ERROR: Missing room empty object assigned to the entrance."
        | some ri =>
          if (lookupA acc p.spawnIndex).isSome then
            Except.error ("ERROR: Repeated Spawn Index: " ++ toString p.spawnIndex)
          else
            collectEnt flags hIdx rest (acc ++ [(p.spawnIndex, mkEntranceActor flags p conv ri)])
      else collectEnt flags hIdx rest acc

/-- SceneEntranceActors.new: collect the valid entrance markers keyed by
spawn index, sort by key, and fail unless the keys are exactly
0 .. N-1 in order. -/
def SceneEntranceActors.new (name : String) (scene : SObj) (flags : Flags)
    (headerIndex : Nat) : Except String SceneEntranceActors :=
  match collectEnt flags headerIndex (entMarkers scene) [] with
  | Except.error e => Except.error e
  | Except.ok assoc =>
    let sortedA := isortK (fun a b => decide (a.1 ≤ b.1)) assoc
    if sortedA.map Prod.fst = List.range sortedA.length then
      Except.ok ⟨name, sortedA.map Prod.snd⟩
    else
      Except.error "ERROR: The spawn indices are not consecutive!"

/-- Whether an Except is an error (build aborted, no table produced). -/
def exceptErr {ε α : Type} : Except ε α → Bool
  | Except.error _ => true
  | Except.ok _ => false

/-- The spawn indices of the valid entrance markers of an object list, in
traversal order: the keys the collection loop encounters. -/
def spawnIdxsOf (hIdx : Nat) (objs : List SObj) : List Nat :=
  objs.filterMap fun o =>
    match entPropOf o with
    | some (p, _) => if validA p.actor hIdx then some p.spawnIndex else none
    | none => none

/-- The spawn indices of the valid entrance markers of a scene. -/
def spawnListOf (scene : SObj) (hIdx : Nat) : List Nat :=
  spawnIdxsOf hIdx (entMarkers scene)

/-- Modelled from the spec: the flat, comment-free ten-field row convention
that from_data accepts (spec section 6, "each row expanding to exactly 10
positional fields"), with the enclosing-brace grouping of the
not-zapd-assets convention.  The exporter's own getEntryC does not emit
this shape; this definition exists to compare the parser against the row
format it is written for. -/
def flatTransRow (a : TransitionActor) : String :=
  String.mk [lbrace] ++
    pyJoin "," [optIntS a.roomFrom, optStrS a.cameraFront, optIntS a.roomTo,
                optStrS a.cameraBack, a.id, toString a.pos.x, toString a.pos.y,
                toString a.pos.z, a.rot, a.params] ++
    "," ++ String.mk [rbrace] ++ ","

/-- A concrete constructed transition actor used by concrete evaluations. -/
def c1ex : TransitionActor :=
  { name := "Example Actor", id := "ACTOR_EN_TEST", pos := ⟨10, -20, 30⟩,
    rot := degStr 0x4000, params := "0x0000",
    isRoomTransition := none, roomFrom := some 0, roomTo := some 1,
    cameraFront := some "CAM_SET_NONE", cameraBack := some "CAM_SET_NONE" }

/-- A concrete actor property block for concrete scenes. -/
def actFix (idv : String) : OOTActorProperty :=
  { headerValidAt := fun _ => true, actor_id := idv,
    actor_id_custom := "ACTOR_CUSTOM", params := "0x0001", params_custom := "0x0002" }

/-- Concrete global flags for concrete scenes. -/
def flagsFix : Flags :=
  { use_new_actor_panel := true, actorNames := fun _ => "Door - EN_DOOR" }

/-- A concrete entrance marker object. -/
def entMFix (u spawn : Nat) (tied : Option Int) : SObj :=
  .node u (.entMarker { actor := actFix "ACTOR_PLAYER", customActor := false,
                        tiedRoom := tied, spawnIndex := spawn }
                      (⟨1, 2, 3⟩, ⟨0, 0x4000, 0⟩)) []

/-- A concrete transition marker object. -/
def transMFix (u : Nat) (cross : Bool) (fr tr : Option Int) : SObj :=
  .node u (.transMarker { actor := actFix "ACTOR_EN_DOOR", isRoomTransition := cross,
                          fromRoom := fr, toRoom := tr,
                          cameraTransitionFront := "CAM_F",
                          cameraTransitionBack := "CAM_B" }
                        (⟨4, 5, 6⟩, ⟨0, 0x2000, 0⟩)) []

/-- A concrete room object. -/
def roomFix (u : Nat) (idx : Int) (cs : List SObj) : SObj := .node u (.room idx) cs

/-- A concrete scene root. -/
def sceneFix (cs : List SObj) : SObj := .node 0 .other cs

/-- A concrete transition marker property block. -/
def transPropFix : TransitionActorProperty :=
  { actor := actFix "ACTOR_EN_DOOR", isRoomTransition := false,
    fromRoom := none, toRoom := none,
    cameraTransitionFront := "CAM_F", cameraTransitionBack := "CAM_B" }

/-- The transition entry built from transPropFix in a room of index 2. -/
def transActFix : TransitionActor :=
  { name := "Door", id := "ACTOR_EN_DOOR", pos := ⟨4, 5, 6⟩,
    rot := "DEG_TO_BINANG(45.000)", params := "0x0001",
    isRoomTransition := none, roomFrom := some 2, roomTo := some 2,
    cameraFront := some "CAM_F", cameraBack := some "CAM_B" }

/-- A concrete entrance marker property block. -/
def entPropFix : EntranceProperty :=
  { actor := actFix "ACTOR_PLAYER", customActor := false,
    tiedRoom := some 0, spawnIndex := 0 }

/-- A concrete constructed transition actor whose rot field is a plain
token (binary-angle expressions go through the external evaluator). -/
def c1flatEx : TransitionActor :=
  { name := "Example Actor", id := "ACTOR_EN_TEST", pos := ⟨10, -20, 30⟩,
    rot := "0x4000", params := "0x0000",
    isRoomTransition := none, roomFrom := some 0, roomTo := some 1,
    cameraFront := some "CAM_A", cameraBack := some "CAM_B" }

/-- A concrete converted transform for fixtures. -/
def convFix : Vec3i × Vec3i := (⟨4, 5, 6⟩, ⟨0, 0x2000, 0⟩)

/-- A concrete room-crossing transition property with an unset toRoom. -/
def transPropCross : TransitionActorProperty :=
  { actor := actFix "ACTOR_EN_DOOR", isRoomTransition := true,
    fromRoom := some 1, toRoom := none,
    cameraTransitionFront := "CAM_F", cameraTransitionBack := "CAM_B" }

/-- A concrete transition marker whose room-crossing reference is unset. -/
def transMCrossFix : SObj := .node 10 (.transMarker transPropCross convFix) []

/-- A concrete entrance property with an unset tied room. -/
def entPropNoRoom : EntranceProperty :=
  { actor := actFix "ACTOR_PLAYER", customActor := false,
    tiedRoom := none, spawnIndex := 0 }

/-- A concrete entrance marker whose tied room is unset. -/
def entMNoRoomFix : SObj := .node 10 (.entMarker entPropNoRoom convFix) []

/-- A scene with two entrance markers claiming spawn index 1. -/
def sceneC3 : SObj := sceneFix [entMFix 10 1 (some 0), entMFix 11 1 (some 0)]

/-- A scene whose entrance markers carry spawn indices 1, 0, 2 in that order. -/
def sceneC2good : SObj :=
  sceneFix [entMFix 10 1 (some 0), entMFix 11 0 (some 0), entMFix 12 2 (some 0)]

/-- A scene whose entrance markers carry spawn indices 0, 2, 3 (a gap). -/
def sceneC2bad : SObj :=
  sceneFix [entMFix 10 0 (some 0), entMFix 11 2 (some 0), entMFix 12 3 (some 0)]

/-- A scene holding the cross-room transition marker with the unset reference. -/
def sceneC4t : SObj := sceneFix [roomFix 1 0 [transMCrossFix]]

/-- A scene holding the entrance marker with the unset tied room. -/
def sceneC4e : SObj := sceneFix [entMNoRoomFix]

/-- A one-room scene with one same-room transition marker. -/
def sceneC6 : SObj := sceneFix [roomFix 1 7 [transMFix 10 false none none]]

/-- A scene whose rooms (indices 5 then 3) each own one transition marker. -/
def sceneC8 : SObj :=
  sceneFix [roomFix 1 5 [transMFix 10 false none none],
            roomFix 2 3 [transMFix 11 false none none]]


/-- The table SceneTransitionActors.new builds from sceneC8. -/
def tC8 : SceneTransitionActors :=
  ⟨"gT", [{ transActFix with roomFrom := some 3, roomTo := some 3 },
          { transActFix with roomFrom := some 5, roomTo := some 5 }]⟩

theorem isPrefixOf_mem_subset {l₁ l₂ : List Char} (h : l₁.isPrefixOf l₂ = true) :
    ∀ x ∈ l₁, x ∈ l₂ :=
  fun _ hx => (List.isPrefixOf_iff_prefix.mp h).sublist.subset hx

theorem isPrefixOf_append_self (l m : List Char) : l.isPrefixOf (l ++ m) = true := by
  rw [List.isPrefixOf_iff_prefix]
  exact List.prefix_append l m

theorem isSuffixOf_append_self (l m : List Char) : m.isSuffixOf (l ++ m) = true := by
  rw [List.isSuffixOf_iff_suffix]
  exact List.suffix_append l m

theorem pySplitF_irrel (sep : List Char) :
    ∀ (f₁ f₂ : Nat) (s : List Char), s.length < f₁ → s.length < f₂ →
      pySplitF sep f₁ s = pySplitF sep f₂ s
  | 0, _, s, h₁, _ => absurd h₁ (by omega)
  | _ + 1, 0, s, _, h₂ => absurd h₂ (by omega)
  | _ + 1, _ + 1, [], _, _ => rfl
  | f₁ + 1, f₂ + 1, c :: rest, h₁, h₂ => by
    simp only [pySplitF]
    have hd : ∀ k, (rest.drop k).length < f₁ ∧ (rest.drop k).length < f₂ := by
      intro k
      simp only [List.length_drop]
      simp only [List.length_cons] at h₁ h₂
      omega
    rw [pySplitF_irrel sep f₁ f₂ (rest.drop (sep.length - 1)) (hd _).1 (hd _).2,
        pySplitF_irrel sep f₁ f₂ rest (by simp at h₁ ⊢; omega) (by simp at h₂ ⊢; omega)]

theorem pySplitL_cons (sep : List Char) (c : Char) (rest : List Char) :
    pySplitL sep (c :: rest) =
      if sep.isPrefixOf (c :: rest) then
        [] :: pySplitL sep (rest.drop (sep.length - 1))
      else
        match pySplitL sep rest with
        | [] => [[c]]
        | chunk :: more => (c :: chunk) :: more := by
  show pySplitF sep (rest.length + 1 + 1) (c :: rest) = _
  simp only [pySplitF]
  rw [pySplitF_irrel sep (rest.length + 1) ((rest.drop (sep.length - 1)).length + 1)
        (rest.drop (sep.length - 1)) (by simp; omega) (by omega),
      pySplitF_irrel sep (rest.length + 1) (rest.length + 1) rest (by omega) (by omega)]
  rfl

theorem pyReplaceF_irrel (old nw : List Char) :
    ∀ (f₁ f₂ : Nat) (s : List Char), s.length < f₁ → s.length < f₂ →
      pyReplaceF old nw f₁ s = pyReplaceF old nw f₂ s
  | 0, _, s, h₁, _ => absurd h₁ (by omega)
  | _ + 1, 0, s, _, h₂ => absurd h₂ (by omega)
  | _ + 1, _ + 1, [], _, _ => rfl
  | f₁ + 1, f₂ + 1, c :: rest, h₁, h₂ => by
    simp only [pyReplaceF]
    simp only [List.length_cons] at h₁ h₂
    rw [pyReplaceF_irrel old nw f₁ f₂ (rest.drop (old.length - 1))
          (by simp only [List.length_drop]; omega) (by simp only [List.length_drop]; omega),
        pyReplaceF_irrel old nw f₁ f₂ rest (by omega) (by omega)]

theorem pyReplaceL_cons (old nw : List Char) (c : Char) (rest : List Char) :
    pyReplaceL old nw (c :: rest) =
      if old.isPrefixOf (c :: rest) then
        nw ++ pyReplaceL old nw (rest.drop (old.length - 1))
      else
        c :: pyReplaceL old nw rest := by
  show pyReplaceF old nw (rest.length + 1 + 1) (c :: rest) = _
  simp only [pyReplaceF]
  rw [pyReplaceF_irrel old nw (rest.length + 1) ((rest.drop (old.length - 1)).length + 1)
        (rest.drop (old.length - 1)) (by simp; omega) (by omega),
      pyReplaceF_irrel old nw (rest.length + 1) (rest.length + 1) rest (by omega) (by omega)]
  rfl

theorem pySplitL_no_sep {sep : List Char} {c : Char} (hc : c ∈ sep) :
    ∀ s : List Char, c ∉ s → pySplitL sep s = [s]
  | [], _ => rfl
  | a :: rest, hs => by
    have hnp : sep.isPrefixOf (a :: rest) = false := by
      cases hp : sep.isPrefixOf (a :: rest)
      · rfl
      · exact absurd (isPrefixOf_mem_subset hp c hc) hs
    have ih := pySplitL_no_sep hc rest (fun hr => hs (List.mem_cons_of_mem a hr))
    rw [pySplitL_cons, hnp, ih]
    simp

theorem pyReplaceL_not_mem {c : Char} {nw : List Char} :
    ∀ {s : List Char}, c ∉ s → pyReplaceL [c] nw s = s
  | [], _ => rfl
  | a :: rest, hs => by
    have hca : ¬(c = a) := fun h => hs (h ▸ List.mem_cons_self a rest)
    have hnp : List.isPrefixOf [c] (a :: rest) = false := by
      simp [List.isPrefixOf, hca]
    have ih := @pyReplaceL_not_mem c nw rest
      (fun hr => hs (List.mem_cons_of_mem a hr) : c ∉ rest)
    rw [pyReplaceL_cons, hnp, ih]
    simp

theorem pySplitL_cons_sep {c : Char} :
    ∀ {x : List Char} (ys : List Char), c ∉ x →
      pySplitL [c] (x ++ c :: ys) = x :: pySplitL [c] ys
  | [], ys, _ => by
    rw [List.nil_append, pySplitL_cons]
    simp [List.isPrefixOf]
  | a :: x', ys, hx => by
    have hca : ¬(c = a) := fun h => hx (h ▸ List.mem_cons_self a x')
    have hnp : List.isPrefixOf [c] (a :: (x' ++ c :: ys)) = false := by
      simp [List.isPrefixOf, hca]
    have ih := @pySplitL_cons_sep c x' ys
      (fun hr => hx (List.mem_cons_of_mem a hr))
    rw [List.cons_append, pySplitL_cons, hnp, ih]
    simp

theorem pyRemoveEmptiesF_irrel :
    ∀ (f₁ f₂ : Nat) (l : List String) (i : Nat), l.length - i < f₁ → l.length - i < f₂ →
      pyRemoveEmptiesF f₁ l i = pyRemoveEmptiesF f₂ l i
  | 0, f₂, l, i, h₁, _ => by
    have : ¬ i < l.length := by omega
    cases f₂ with
    | zero => rfl
    | succ f₂ => simp [pyRemoveEmptiesF, this]
  | _ + 1, 0, l, i, _, h₂ => by
    have : ¬ i < l.length := by omega
    simp [pyRemoveEmptiesF, this]
  | f₁ + 1, f₂ + 1, l, i, h₁, h₂ => by
    simp only [pyRemoveEmptiesF]
    split
    · rename_i hlt
      split
      · rename_i hg
        have hm : "" ∈ l := by rw [← hg]; exact List.get_mem l i hlt
        have hl : (l.erase "").length = l.length - 1 := List.length_erase_of_mem hm
        exact pyRemoveEmptiesF_irrel f₁ f₂ (l.erase "") (i + 1) (by omega) (by omega)
      · exact pyRemoveEmptiesF_irrel f₁ f₂ l (i + 1) (by omega) (by omega)
    · rfl

theorem pyRemoveEmptiesF_clean :
    ∀ (fuel : Nat) (l : List String) (i : Nat), l.length - i < fuel →
      (∀ x ∈ l, x ≠ "") → pyRemoveEmptiesF fuel l i = l
  | 0, l, i, h, _ => rfl
  | fuel + 1, l, i, h, hcl => by
    simp only [pyRemoveEmptiesF]
    split
    · rename_i hlt
      rw [if_neg (hcl _ (List.get_mem l i hlt))]
      exact pyRemoveEmptiesF_clean fuel l (i + 1) (by omega) hcl
    · rfl

theorem pyRemoveEmpties_clean (l : List String) (h : ∀ x ∈ l, x ≠ "") :
    pyRemoveEmpties l = l :=
  pyRemoveEmptiesF_clean (l.length + 1) l 0 (by omega) h

/-- C10: the serialized transition row begins with a leading name comment
line (followed by the row indent) exactly when the actor's name is
non-empty, and the remainder of the row is the name-independent entry
body. -/
theorem c10_trans_name_comment (a : TransitionActor) :
    (a.name ≠ "" → a.getEntryC = (indent ++ "// " ++ a.name ++ "\n" ++ indent) ++ a.entryBody) ∧
    (a.name = "" → a.getEntryC = a.entryBody) ∧
    (∀ s : String, TransitionActor.entryBody { a with name := s } = a.entryBody) := by
  refine ⟨fun h => ?_, fun h => ?_, fun s => rfl⟩
  · simp [TransitionActor.getEntryC, h]
  · simp [TransitionActor.getEntryC, h]

/-- C10 witness: concrete rows with and without a name. -/
theorem c10_trans_name_comment_witness :
    (c1ex.name ≠ "" ∧
      c1ex.getEntryC = (indent ++ "// " ++ c1ex.name ++ "\n" ++ indent) ++ c1ex.entryBody) ∧
    ({ c1ex with name := "" }.name = "" ∧
      TransitionActor.getEntryC { c1ex with name := "" } =
        TransitionActor.entryBody { c1ex with name := "" }) ∧
    TransitionActor.entryBody { c1ex with name := "other" } = c1ex.entryBody :=
  ⟨⟨by decide, (c10_trans_name_comment c1ex).1 (by decide)⟩,
   ⟨rfl, (c10_trans_name_comment { c1ex with name := "" }).2.1 rfl⟩,
   (c10_trans_name_comment c1ex).2.2 "other"⟩

/-- C7: an empty entrance table emits SCENE_CMD_SPAWN_LIST with count 0 and
the NULL name sentinel; a non-empty one uses its entry count and name. -/
theorem c7_spawn_list_cmd (t : SceneEntranceActors) :
    (t.entries = [] → t.getCmd = indent ++ "SCENE_CMD_SPAWN_LIST(0, NULL),\n") ∧
    (t.entries ≠ [] → t.getCmd =
      indent ++ "SCENE_CMD_SPAWN_LIST(" ++ toString t.entries.length ++ ", " ++
        t.name ++ "),\n") := by
  obtain ⟨nm, es⟩ := t
  constructor
  · intro h
    simp only at h
    subst h
    simp only [SceneEntranceActors.getCmd, List.length_nil, gt_iff_lt,
      lt_self_iff_false, if_false]
    decide
  · intro h
    simp only at h
    match es, h with
    | e :: es', _ => simp [SceneEntranceActors.getCmd]

/-- C7 witness: concrete empty and singleton tables. -/
theorem c7_spawn_list_cmd_witness :
    SceneEntranceActors.getCmd ⟨"gSpawnList", []⟩ =
      indent ++ "SCENE_CMD_SPAWN_LIST(0, NULL),\n" ∧
    SceneEntranceActors.getCmd ⟨"gSpawnList", [{ name := "p" }]⟩ =
      indent ++ "SCENE_CMD_SPAWN_LIST(1, gSpawnList),\n" :=
  ⟨(c7_spawn_list_cmd ⟨"gSpawnList", []⟩).1 rfl,
   (c7_spawn_list_cmd ⟨"gSpawnList", [{ name := "p" }]⟩).2 (by simp)⟩

/-- C9: a constructed TransitionActor's rot is a single binary-angle
expression built from the second rotation component only, its degree value
formatted to three decimals, while a constructed EntranceActor's rot is
all three components so formatted and comma-joined. -/
theorem c9_rotation_axes (flags : Flags) :
    (∀ (owningIdx : Int) (p : TransitionActorProperty) (conv : Vec3i × Vec3i)
       (e : TransitionActor), mkTransitionActor flags owningIdx p conv = Except.ok e →
         e.rot = "DEG_TO_BINANG(" ++ fmt3 conv.2.y ++ ")") ∧
    (∀ (p : EntranceProperty) (conv : Vec3i × Vec3i) (ri : Int),
       (mkEntranceActor flags p conv ri).rot =
         pyJoin ", " (conv.2.toList.map degStr)) ∧
    (∀ r : Int, degStr r = "DEG_TO_BINANG(" ++ fmt3 r ++ ")") := by
  refine ⟨fun owningIdx p conv e h => ?_, fun p conv ri => rfl, fun r => rfl⟩
  unfold mkTransitionActor at h
  split at h
  · exact absurd h (by simp)
  · simp only [Except.ok.injEq] at h
    subst h
    rfl

/-- C9 witness: a concrete marker construction on both entry kinds. -/
theorem c9_rotation_axes_witness :
    mkTransitionActor flagsFix 2 transPropFix (⟨4, 5, 6⟩, ⟨0, 0x2000, 0⟩) =
      Except.ok transActFix ∧
    transActFix.rot = "DEG_TO_BINANG(" ++ fmt3 (0x2000 : Int) ++ ")" ∧
    (mkEntranceActor flagsFix entPropFix (⟨1, 2, 3⟩, ⟨0x1000, 0x2000, 0x3000⟩) 0).rot =
      pyJoin ", " ((⟨0x1000, 0x2000, 0x3000⟩ : Vec3i).toList.map degStr) :=
  ⟨by rfl,
   (c9_rotation_axes flagsFix).1 2 transPropFix (⟨4, 5, 6⟩, ⟨0, 0x2000, 0⟩)
     transActFix (by rfl),
   (c9_rotation_axes flagsFix).2.1 entPropFix (⟨1, 2, 3⟩, ⟨0x1000, 0x2000, 0x3000⟩) 0⟩

/-- C5 (amended): a row whose field list, after the parser's empty-field
removal pass (which removes empty fields at any position and skips the
element following each removal), does not have exactly ten entries fails
the ten-field assertion and is never truncated or padded. -/
theorem c5_field_count (entry : String)
    (h : (pyRemoveEmpties (pySplitS ","
      (pyReplaceS (String.mk [rbrace]) "" (pyReplaceS (String.mk [lbrace]) "" entry)))).length ≠ 10) :
    parseTransEntry entry = Except.error "AssertionError: len(params) == 10" := by
  simp only [parseTransEntry]
  rw [if_neg h]

/-- C5 witness: a concrete nine-field row is rejected by the assertion. -/
theorem c5_field_count_witness :
    (pyRemoveEmpties (pySplitS ","
      (pyReplaceS (String.mk [rbrace]) "" (pyReplaceS (String.mk [lbrace]) ""
        "0,CF,5,CB,ID,1,2,3,R")))).length ≠ 10 ∧
    parseTransEntry "0,CF,5,CB,ID,1,2,3,R" =
      Except.error "AssertionError: len(params) == 10" :=
  ⟨by decide, c5_field_count "0,CF,5,CB,ID,1,2,3,R" (by decide)⟩

/-- C5 counterexample: the row 0,,CF,5,CB,ID,1,2,3,ROT,PR expands to eleven
comma-separated fields (none of them trailing empties beyond the formatting
artifact), yet from_data accepts it, silently dropping the internal empty
field, instead of raising a parse error. -/
theorem c5_counterexample :
    (pySplitS "," "0,,CF,5,CB,ID,1,2,3,ROT,PR").length = 11 ∧
    (pySplitS "," "0,,CF,5,CB,ID,1,2,3,ROT,PR").getLast? = some "PR" ∧
    SceneTransitionActors.from_data "0,,CF,5,CB,ID,1,2,3,ROT,PR\x7d," true =
      Except.ok ⟨"(unset)",
        [{ name := "(unset)", id := "ID", pos := ⟨1, 2, 3⟩, rot := "ROT",
           params := "PR", isRoomTransition := some true,
           roomFrom := some 0, roomTo := some 5,
           cameraFront := some "CF", cameraBack := some "CB" }]⟩ :=
  ⟨by decide, by decide, by rfl⟩

/-- C1 counterexample: parsing back the text serialized for a concrete
constructed entry (the rows emitted by getEntryC, joined as getC joins
them) fails the ten-field assertion under both delimiter conventions,
because the fixed-width inline comments contain commas and braces; no
entry list is recovered at all. -/
theorem c1_counterexample :
    SceneTransitionActors.from_data
        (pyJoin "\n" ((SceneTransitionActors.mk "gTestTransitionActorList" [c1ex]).entries.map
          TransitionActor.getEntryC)) true =
      Except.error "AssertionError: len(params) == 10" ∧
    SceneTransitionActors.from_data
        (pyJoin "\n" ((SceneTransitionActors.mk "gTestTransitionActorList" [c1ex]).entries.map
          TransitionActor.getEntryC)) false =
      Except.error "AssertionError: len(params) == 10" :=
  ⟨by rfl, by rfl⟩

/-- C1 (amended): from_data does recover id, pos, roomFrom, roomTo and
params identically (with name reset to the "(unset)" placeholder and
isRoomTransition recomputed as roomFrom != roomTo) from a row in the flat
comment-free ten-field format it accepts; rot is kept as the literal token
when it is not in binary-angle form.  The exporter's own getEntryC output
is not in this format, so the literal serialize-then-parse round trip
fails instead (see the counterexample). -/
theorem c1_flat_roundtrip (a : TransitionActor) (rf rt : Int) (cf cb : String)
    (hrf : a.roomFrom = some rf) (hrt : a.roomTo = some rt)
    (hcf : a.cameraFront = some cf) (hcb : a.cameraBack = some cb)
    (hwf : ∀ f ∈ [toString rf, cf, toString rt, cb, a.id, toString a.pos.x,
                  toString a.pos.y, toString a.pos.z, a.rot, a.params],
        f.data ≠ [] ∧ (',') ∉ f.data ∧ lbrace ∉ f.data ∧ rbrace ∉ f.data)
    (h0 : hexOrDecInt (toString rf) = some rf)
    (h2 : hexOrDecInt (toString rt) = some rt)
    (h5 : hexOrDecInt (toString a.pos.x) = some a.pos.x)
    (h6 : hexOrDecInt (toString a.pos.y) = some a.pos.y)
    (h7 : hexOrDecInt (toString a.pos.z) = some a.pos.z)
    (h8 : pyContainsS "DEG_TO_BINANG" a.rot = false) :
    SceneTransitionActors.from_data (flatTransRow a) true =
      Except.ok ⟨"(unset)",
        [({ a with
              name := "(unset)",
              isRoomTransition := some (rf != rt) } : TransitionActor)]⟩ := by
  have w0 := hwf (toString rf) (by simp)
  have w1 := hwf cf (by simp)
  have w2 := hwf (toString rt) (by simp)
  have w3 := hwf cb (by simp)
  have w4 := hwf a.id (by simp)
  have w5 := hwf (toString a.pos.x) (by simp)
  have w6 := hwf (toString a.pos.y) (by simp)
  have w7 := hwf (toString a.pos.z) (by simp)
  have w8 := hwf a.rot (by simp)
  have w9 := hwf a.params (by simp)
  have hJd : (pyJoin "," [toString rf, cf, toString rt, cb, a.id, toString a.pos.x,
      toString a.pos.y, toString a.pos.z, a.rot, a.params]).data =
      (toString rf).data ++ ',' :: (cf.data ++ ',' :: ((toString rt).data ++ ',' ::
        (cb.data ++ ',' :: (a.id.data ++ ',' :: ((toString a.pos.x).data ++ ',' ::
          ((toString a.pos.y).data ++ ',' :: ((toString a.pos.z).data ++ ',' ::
            (a.rot.data ++ ',' :: a.params.data)))))))) := by
    simp [pyJoin, String.data_append]
  have hlb : lbrace ∉ (pyJoin "," [toString rf, cf, toString rt, cb, a.id, toString a.pos.x,
      toString a.pos.y, toString a.pos.z, a.rot, a.params]).data := by
    rw [hJd]
    simp [w0.2.2.1, w1.2.2.1, w2.2.2.1, w3.2.2.1, w4.2.2.1, w5.2.2.1, w6.2.2.1,
      w7.2.2.1, w8.2.2.1, w9.2.2.1, show lbrace ≠ ',' by decide]
  have hrb : rbrace ∉ (pyJoin "," [toString rf, cf, toString rt, cb, a.id, toString a.pos.x,
      toString a.pos.y, toString a.pos.z, a.rot, a.params]).data := by
    rw [hJd]
    simp [w0.2.2.2, w1.2.2.2, w2.2.2.2, w3.2.2.2, w4.2.2.2, w5.2.2.2, w6.2.2.2,
      w7.2.2.2, w8.2.2.2, w9.2.2.2, show rbrace ≠ ',' by decide]
  have hdata : (flatTransRow a).data =
      lbrace :: ((pyJoin "," [toString rf, cf, toString rt, cb, a.id, toString a.pos.x,
        toString a.pos.y, toString a.pos.z, a.rot, a.params]).data ++ [',', rbrace, ',']) := by
    simp [flatTransRow, String.data_append, hrf, hrt, hcf, hcb, optIntS, optStrS,
      show (",").data = [','] from rfl, show (String.mk [lbrace]).data = [lbrace] from rfl,
      show (String.mk [rbrace]).data = [rbrace] from rfl]
  have hstep1 : pyRemovePreS (String.mk [lbrace]) (flatTransRow a) =
      String.mk ((pyJoin "," [toString rf, cf, toString rt, cb, a.id, toString a.pos.x,
        toString a.pos.y, toString a.pos.z, a.rot, a.params]).data ++ [',', rbrace, ',']) := by
    unfold pyRemovePreS
    rw [hdata]
    simp [List.isPrefixOf]
  have hstep2 : pyRemoveSufS ("," ++ String.mk [rbrace] ++ ",")
      (String.mk ((pyJoin "," [toString rf, cf, toString rt, cb, a.id, toString a.pos.x,
        toString a.pos.y, toString a.pos.z, a.rot, a.params]).data ++ [',', rbrace, ','])) =
      pyJoin "," [toString rf, cf, toString rt, cb, a.id, toString a.pos.x,
        toString a.pos.y, toString a.pos.z, a.rot, a.params] := by
    unfold pyRemoveSufS
    have hpd : ("," ++ String.mk [rbrace] ++ ",").data = [',', rbrace, ','] := rfl
    rw [show (String.mk ((pyJoin "," [toString rf, cf, toString rt, cb, a.id,
      toString a.pos.x, toString a.pos.y, toString a.pos.z, a.rot, a.params]).data ++
      [',', rbrace, ','])).data = (pyJoin "," [toString rf, cf, toString rt, cb, a.id,
      toString a.pos.x, toString a.pos.y, toString a.pos.z, a.rot,
      a.params]).data ++ [',', rbrace, ','] from rfl, hpd,
      isSuffixOf_append_self _ _]
    simp [List.take_left]
  have hsplit3 : pySplitS ("," ++ String.mk [rbrace] ++ "," ++ String.mk [lbrace])
      (pyJoin "," [toString rf, cf, toString rt, cb, a.id, toString a.pos.x,
        toString a.pos.y, toString a.pos.z, a.rot, a.params]) =
      [pyJoin "," [toString rf, cf, toString rt, cb, a.id, toString a.pos.x,
        toString a.pos.y, toString a.pos.z, a.rot, a.params]] := by
    unfold pySplitS
    rw [@pySplitL_no_sep (("," ++ String.mk [rbrace] ++ "," ++ String.mk [lbrace]).data)
      lbrace (by decide) _ hlb]
    rfl
  have hJne : pyJoin "," [toString rf, cf, toString rt, cb, a.id, toString a.pos.x,
      toString a.pos.y, toString a.pos.z, a.rot, a.params] ≠ "" := by
    intro he
    have hd0 : (pyJoin "," [toString rf, cf, toString rt, cb, a.id, toString a.pos.x,
      toString a.pos.y, toString a.pos.z, a.rot, a.params]).data = [] := he ▸ rfl
    rw [hJd] at hd0
    simp at hd0
  have hrepl1 : pyReplaceS (String.mk [lbrace]) "" (pyJoin "," [toString rf, cf,
      toString rt, cb, a.id, toString a.pos.x, toString a.pos.y, toString a.pos.z,
      a.rot, a.params]) = pyJoin "," [toString rf, cf, toString rt, cb, a.id,
      toString a.pos.x, toString a.pos.y, toString a.pos.z, a.rot, a.params] := by
    unfold pyReplaceS
    rw [show (String.mk [lbrace]).data = [lbrace] from rfl, pyReplaceL_not_mem hlb]
  have hrepl2 : pyReplaceS (String.mk [rbrace]) "" (pyJoin "," [toString rf, cf,
      toString rt, cb, a.id, toString a.pos.x, toString a.pos.y, toString a.pos.z,
      a.rot, a.params]) = pyJoin "," [toString rf, cf, toString rt, cb, a.id,
      toString a.pos.x, toString a.pos.y, toString a.pos.z, a.rot, a.params] := by
    unfold pyReplaceS
    rw [show (String.mk [rbrace]).data = [rbrace] from rfl, pyReplaceL_not_mem hrb]
  have hsplitC : pySplitS "," (pyJoin "," [toString rf, cf, toString rt, cb, a.id,
      toString a.pos.x, toString a.pos.y, toString a.pos.z, a.rot, a.params]) =
      [toString rf, cf, toString rt, cb, a.id, toString a.pos.x, toString a.pos.y,
        toString a.pos.z, a.rot, a.params] := by
    unfold pySplitS
    rw [show (",").data = [','] from rfl, hJd,
      pySplitL_cons_sep _ w0.2.1, pySplitL_cons_sep _ w1.2.1, pySplitL_cons_sep _ w2.2.1,
      pySplitL_cons_sep _ w3.2.1, pySplitL_cons_sep _ w4.2.1, pySplitL_cons_sep _ w5.2.1,
      pySplitL_cons_sep _ w6.2.1, pySplitL_cons_sep _ w7.2.1, pySplitL_cons_sep _ w8.2.1,
      pySplitL_no_sep (List.mem_singleton.mpr rfl) _ w9.2.1]
    rfl
  have hne10 : ∀ f ∈ [toString rf, cf, toString rt, cb, a.id, toString a.pos.x,
      toString a.pos.y, toString a.pos.z, a.rot, a.params], f ≠ "" :=
    fun f hf he => (hwf f hf).1 (he ▸ rfl)
  have hclean := pyRemoveEmpties_clean _ hne10
  unfold SceneTransitionActors.from_data
  simp only [if_true]
  rw [hstep1, hstep2, hsplit3]
  simp only [parseTransEntries]
  rw [if_neg hJne]
  simp only [parseTransEntry]
  rw [hrepl1, hrepl2, hsplitC, hclean]
  simp only [List.length_cons, List.length_nil]
  simp only [if_true]
  rw [
    show ([toString rf, cf, toString rt, cb, a.id, toString a.pos.x,
      toString a.pos.y, toString a.pos.z, a.rot, a.params].getD 5 "") = toString a.pos.x from rfl,
    show ([toString rf, cf, toString rt, cb, a.id, toString a.pos.x,
      toString a.pos.y, toString a.pos.z, a.rot, a.params].getD 6 "") = toString a.pos.y from rfl,
    show ([toString rf, cf, toString rt, cb, a.id, toString a.pos.x,
      toString a.pos.y, toString a.pos.z, a.rot, a.params].getD 7 "") = toString a.pos.z from rfl,
    show ([toString rf, cf, toString rt, cb, a.id, toString a.pos.x,
      toString a.pos.y, toString a.pos.z, a.rot, a.params].getD 0 "") = toString rf from rfl,
    show ([toString rf, cf, toString rt, cb, a.id, toString a.pos.x,
      toString a.pos.y, toString a.pos.z, a.rot, a.params].getD 2 "") = toString rt from rfl,
    show ([toString rf, cf, toString rt, cb, a.id, toString a.pos.x,
      toString a.pos.y, toString a.pos.z, a.rot, a.params].getD 4 "") = a.id from rfl,
    show ([toString rf, cf, toString rt, cb, a.id, toString a.pos.x,
      toString a.pos.y, toString a.pos.z, a.rot, a.params].getD 8 "") = a.rot from rfl,
    show ([toString rf, cf, toString rt, cb, a.id, toString a.pos.x,
      toString a.pos.y, toString a.pos.z, a.rot, a.params].getD 9 "") = a.params from rfl,
    show ([toString rf, cf, toString rt, cb, a.id, toString a.pos.x,
      toString a.pos.y, toString a.pos.z, a.rot, a.params].getD 1 "") = cf from rfl,
    show ([toString rf, cf, toString rt, cb, a.id, toString a.pos.x,
      toString a.pos.y, toString a.pos.z, a.rot, a.params].getD 3 "") = cb from rfl]
  rw [h5, h6, h7, h0, h2, h8]
  simp [hrf, hrt, hcf, hcb]

/-- C1 amended witness: the flat-row recovery at a concrete entry. -/
theorem c1_flat_roundtrip_witness :
    c1flatEx.roomFrom = some 0 ∧ c1flatEx.roomTo = some 1 ∧
    c1flatEx.cameraFront = some "CAM_A" ∧ c1flatEx.cameraBack = some "CAM_B" ∧
    (∀ f ∈ [toString (0 : Int), "CAM_A", toString (1 : Int), "CAM_B", c1flatEx.id,
            toString c1flatEx.pos.x, toString c1flatEx.pos.y, toString c1flatEx.pos.z,
            c1flatEx.rot, c1flatEx.params],
        f.data ≠ [] ∧ (',') ∉ f.data ∧ lbrace ∉ f.data ∧ rbrace ∉ f.data) ∧
    hexOrDecInt (toString (0 : Int)) = some 0 ∧
    hexOrDecInt (toString (1 : Int)) = some 1 ∧
    hexOrDecInt (toString c1flatEx.pos.x) = some c1flatEx.pos.x ∧
    hexOrDecInt (toString c1flatEx.pos.y) = some c1flatEx.pos.y ∧
    hexOrDecInt (toString c1flatEx.pos.z) = some c1flatEx.pos.z ∧
    pyContainsS "DEG_TO_BINANG" c1flatEx.rot = false ∧
    SceneTransitionActors.from_data (flatTransRow c1flatEx) true =
      Except.ok ⟨"(unset)",
        [({ c1flatEx with
              name := "(unset)",
              isRoomTransition := some ((0 : Int) != 1) } : TransitionActor)]⟩ :=
  ⟨rfl, rfl, rfl, rfl, by decide, by decide, by decide, by decide, by decide, by decide,
   by decide,
   c1_flat_roundtrip c1flatEx 0 1 "CAM_A" "CAM_B" rfl rfl rfl rfl (by decide)
     (by decide) (by decide) (by decide) (by decide) (by decide) (by decide)⟩

theorem insertK_perm {α : Type} (le : α → α → Bool) (x : α) :
    ∀ l : List α, (insertK le x l).Perm (x :: l)
  | [] => List.Perm.refl _
  | y :: ys => by
    unfold insertK
    split
    · exact List.Perm.refl _
    · exact ((insertK_perm le x ys).cons y).trans (List.Perm.swap x y ys)

theorem isortK_perm {α : Type} (le : α → α → Bool) :
    ∀ l : List α, (isortK le l).Perm l
  | [] => List.Perm.refl _
  | x :: xs => (insertK_perm le x (isortK le xs)).trans ((isortK_perm le xs).cons x)

theorem insertK_pairwise {α : Type} (le : α → α → Bool)
    (htot : ∀ a b, le a b = false → le b a = true)
    (htr : ∀ a b c, le a b = true → le b c = true → le a c = true) (x : α) :
    ∀ l : List α, l.Pairwise (fun a b => le a b = true) →
      (insertK le x l).Pairwise (fun a b => le a b = true)
  | [], _ => by simp [insertK]
  | y :: ys, hl => by
    unfold insertK
    split
    · rename_i hxy
      refine List.Pairwise.cons ?_ hl
      intro z hz
      rcases List.mem_cons.mp hz with rfl | hz'
      · exact hxy
      · exact htr x y z hxy (List.rel_of_pairwise_cons hl hz')
    · rename_i hxy
      have hyx : le y x = true := htot x y (by revert hxy; cases le x y <;> simp)
      refine List.Pairwise.cons ?_ (insertK_pairwise le htot htr x ys hl.tail)
      intro z hz
      rcases List.mem_cons.mp ((insertK_perm le x ys).mem_iff.mp hz) with rfl | hz'
      · exact hyx
      · exact List.rel_of_pairwise_cons hl hz'

theorem isortK_pairwise {α : Type} (le : α → α → Bool)
    (htot : ∀ a b, le a b = false → le b a = true)
    (htr : ∀ a b c, le a b = true → le b c = true → le a c = true) :
    ∀ l : List α, (isortK le l).Pairwise (fun a b => le a b = true)
  | [] => by simp [isortK]
  | x :: xs =>
    insertK_pairwise le htot htr x (isortK le xs) (isortK_pairwise le htot htr xs)

theorem map_fst_insertK (x : Nat × EntranceActor) :
    ∀ l : List (Nat × EntranceActor),
      (insertK (fun a b => decide (a.1 ≤ b.1)) x l).map Prod.fst =
        insertK (fun a b => decide (a ≤ b)) x.1 (l.map Prod.fst)
  | [] => rfl
  | y :: ys => by
    unfold insertK
    by_cases h : x.1 ≤ y.1
    · simp [h]
    · simp [h, map_fst_insertK x ys]

theorem map_fst_isortK :
    ∀ l : List (Nat × EntranceActor),
      (isortK (fun a b => decide (a.1 ≤ b.1)) l).map Prod.fst =
        isortK (fun a b => decide (a ≤ b)) (l.map Prod.fst)
  | [] => rfl
  | x :: xs => by
    simp only [isortK, List.map_cons]
    rw [map_fst_insertK x, map_fst_isortK xs]

theorem lookupA_eq_none {α : Type} :
    ∀ (l : List (Nat × α)) (k : Nat), lookupA l k = none ↔ k ∉ l.map Prod.fst
  | [], k => by simp [lookupA]
  | (k₀, v₀) :: rest, k => by
    unfold lookupA
    by_cases h : k₀ = k
    · simp [h]
    · rw [if_neg h]
      simp [lookupA_eq_none rest k, Ne.symm h]

theorem collectEnt_ok (flags : Flags) (hIdx : Nat) (objs : List SObj) :
    ∀ acc : List (Nat × EntranceActor),
      (∀ o ∈ objs, ∀ p conv, entPropOf o = some (p, conv) →
        validA p.actor hIdx = true → p.tiedRoom ≠ none) →
      (acc.map Prod.fst ++ spawnIdxsOf hIdx objs).Nodup →
      ∃ pairs : List (Nat × EntranceActor),
        collectEnt flags hIdx objs acc = Except.ok (acc ++ pairs) ∧
        pairs.map Prod.fst = spawnIdxsOf hIdx objs ∧
        ∀ kv ∈ pairs, (kv.2).spawnIndex = some kv.1 := by
  induction objs with
  | nil =>
    intro acc _ _
    exact ⟨[], by simp [collectEnt], by simp [spawnIdxsOf], by simp⟩
  | cons o rest ih =>
    intro acc hroom hnd
    have hroom' := fun o' ho' => hroom o' (List.mem_cons_of_mem o ho')
    match hE : entPropOf o with
    | none =>
      have hsp : spawnIdxsOf hIdx (o :: rest) = spawnIdxsOf hIdx rest := by
        simp [spawnIdxsOf, hE]
      obtain ⟨pairs, h1, h2, h3⟩ := ih acc hroom' (hsp ▸ hnd)
      exact ⟨pairs, by simpa [collectEnt, hE] using h1, by rw [hsp]; exact h2, h3⟩
    | some (p, conv) =>
      by_cases hv : validA p.actor hIdx
      · match htr : p.tiedRoom with
        | none => exact absurd htr (hroom o (List.mem_cons_self o rest) p conv hE hv)
        | some ri =>
          have hsp : spawnIdxsOf hIdx (o :: rest) = p.spawnIndex :: spawnIdxsOf hIdx rest := by
            simp [spawnIdxsOf, hE, hv]
          rw [hsp] at hnd
          have hknotacc : p.spawnIndex ∉ acc.map Prod.fst := by
            rw [List.nodup_append] at hnd
            intro hmem
            exact hnd.2.2 hmem (List.mem_cons_self _ _)
          have hlk : lookupA acc p.spawnIndex = none := (lookupA_eq_none acc _).mpr hknotacc
          have hnd' : ((acc ++ [(p.spawnIndex, mkEntranceActor flags p conv ri)]).map Prod.fst ++
              spawnIdxsOf hIdx rest).Nodup := by
            rw [List.map_append, List.append_assoc]
            simpa using hnd
          obtain ⟨pairs, h1, h2, h3⟩ :=
            ih (acc ++ [(p.spawnIndex, mkEntranceActor flags p conv ri)]) hroom' hnd'
          refine ⟨(p.spawnIndex, mkEntranceActor flags p conv ri) :: pairs, ?_, ?_, ?_⟩
          · rw [show collectEnt flags hIdx (o :: rest) acc =
              collectEnt flags hIdx rest (acc ++ [(p.spawnIndex, mkEntranceActor flags p conv ri)]) by
                simp [collectEnt, hE, hv, htr, hlk], h1]
            rw [List.append_assoc]
            rfl
          · rw [hsp]
            simpa using h2
          · intro kv hkv
            rcases List.mem_cons.mp hkv with rfl | hkv'
            · rfl
            · exact h3 kv hkv'
      · have hsp : spawnIdxsOf hIdx (o :: rest) = spawnIdxsOf hIdx rest := by
          simp [spawnIdxsOf, hE, hv]
        obtain ⟨pairs, h1, h2, h3⟩ := ih acc hroom' (hsp ▸ hnd)
        exact ⟨pairs, by simpa [collectEnt, hE, hv] using h1, by rw [hsp]; exact h2, h3⟩

theorem lookupA_ne_none_mem {α : Type} (l : List (Nat × α)) (k : Nat)
    (h : lookupA l k ≠ none) : k ∈ l.map Prod.fst := by
  by_contra hmem
  exact h ((lookupA_eq_none l k).mpr hmem)

theorem collectEnt_dup (flags : Flags) (hIdx : Nat) (objs : List SObj) :
    ∀ acc : List (Nat × EntranceActor),
      (∀ o ∈ objs, ∀ p conv, entPropOf o = some (p, conv) →
        validA p.actor hIdx = true → p.tiedRoom ≠ none) →
      (acc.map Prod.fst).Nodup →
      ¬ (acc.map Prod.fst ++ spawnIdxsOf hIdx objs).Nodup →
      ∃ k : Nat,
        collectEnt flags hIdx objs acc =
          Except.error ("ERROR: Repeated Spawn Index: " ++ toString k) ∧
        2 ≤ (acc.map Prod.fst ++ spawnIdxsOf hIdx objs).count k := by
  induction objs with
  | nil =>
    intro acc _ hacc hnd
    exact absurd (by simpa [spawnIdxsOf] using hacc) hnd
  | cons o rest ih =>
    intro acc hroom hacc hnd
    have hroom' := fun o' ho' => hroom o' (List.mem_cons_of_mem o ho')
    match hE : entPropOf o with
    | none =>
      have hsp : spawnIdxsOf hIdx (o :: rest) = spawnIdxsOf hIdx rest := by
        simp [spawnIdxsOf, hE]
      rw [hsp] at hnd ⊢
      obtain ⟨k, h1, h2⟩ := ih acc hroom' hacc hnd
      exact ⟨k, by simpa [collectEnt, hE] using h1, h2⟩
    | some (p, conv) =>
      by_cases hv : validA p.actor hIdx
      · match htr : p.tiedRoom with
        | none => exact absurd htr (hroom o (List.mem_cons_self o rest) p conv hE hv)
        | some ri =>
          have hsp : spawnIdxsOf hIdx (o :: rest) = p.spawnIndex :: spawnIdxsOf hIdx rest := by
            simp [spawnIdxsOf, hE, hv]
          rw [hsp] at hnd ⊢
          cases hlk : lookupA acc p.spawnIndex with
          | some e0 =>
            refine ⟨p.spawnIndex, by simp [collectEnt, hE, hv, htr, hlk], ?_⟩
            have hmem : p.spawnIndex ∈ acc.map Prod.fst :=
              lookupA_ne_none_mem acc p.spawnIndex (by simp [hlk])
            rw [List.count_append]
            have h1 : 1 ≤ (acc.map Prod.fst).count p.spawnIndex :=
              List.one_le_count_iff.mpr hmem
            have h2 : 1 ≤ (p.spawnIndex :: spawnIdxsOf hIdx rest).count p.spawnIndex :=
              List.one_le_count_iff.mpr (List.mem_cons_self _ _)
            omega
          | none =>
            have hknotacc : p.spawnIndex ∉ acc.map Prod.fst := (lookupA_eq_none acc _).mp hlk
            have hacc' : ((acc ++ [(p.spawnIndex, mkEntranceActor flags p conv ri)]).map
                Prod.fst).Nodup := by
              rw [List.map_append]
              simp [List.nodup_append, hacc, hknotacc]
            have hnd' : ¬ (((acc ++ [(p.spawnIndex, mkEntranceActor flags p conv ri)]).map
                Prod.fst) ++ spawnIdxsOf hIdx rest).Nodup := by
              rw [List.map_append, List.append_assoc]
              simpa using hnd
            obtain ⟨k, h1, h2⟩ :=
              ih (acc ++ [(p.spawnIndex, mkEntranceActor flags p conv ri)]) hroom' hacc' hnd'
            refine ⟨k, ?_, ?_⟩
            · rw [show collectEnt flags hIdx (o :: rest) acc =
                collectEnt flags hIdx rest
                  (acc ++ [(p.spawnIndex, mkEntranceActor flags p conv ri)]) by
                    simp [collectEnt, hE, hv, htr, hlk]]
              exact h1
            · rw [List.map_append, List.append_assoc] at h2
              simpa using h2
      · have hsp : spawnIdxsOf hIdx (o :: rest) = spawnIdxsOf hIdx rest := by
          simp [spawnIdxsOf, hE, hv]
        rw [hsp] at hnd ⊢
        obtain ⟨k, h1, h2⟩ := ih acc hroom' hacc hnd
        exact ⟨k, by simpa [collectEnt, hE, hv] using h1, h2⟩

/-- C3: when two valid entrance markers claim the same spawn index (all
valid markers having their tied room set), the build fails with the error
naming a spawn index that indeed occurs at least twice; the duplicate is
reported from the collection loop, so the contiguity error message never
appears even when contiguity is also violated. -/
theorem c3_duplicate_spawn (name : String) (scene : SObj) (flags : Flags) (hIdx : Nat)
    (hroom : ∀ o ∈ entMarkers scene, ∀ p conv, entPropOf o = some (p, conv) →
      validA p.actor hIdx = true → p.tiedRoom ≠ none)
    (hdup : ¬ (spawnListOf scene hIdx).Nodup) :
    ∃ k : Nat,
      SceneEntranceActors.new name scene flags hIdx =
        Except.error ("ERROR: Repeated Spawn Index: " ++ toString k) ∧
      2 ≤ (spawnListOf scene hIdx).count k := by
  obtain ⟨k, h1, h2⟩ := collectEnt_dup flags hIdx (entMarkers scene) [] hroom (by simp)
    (by simpa [spawnListOf] using hdup)
  exact ⟨k, by simp [SceneEntranceActors.new, h1], by simpa [spawnListOf] using h2⟩

/-- C3 witness: two markers with spawn index 1 (and non-contiguous indices,
so the contiguity check would also fail) produce the duplicate error. -/
theorem c3_duplicate_spawn_witness :
    (¬ (spawnListOf sceneC3 0).Nodup) ∧
    (∃ k : Nat,
      SceneEntranceActors.new "tbl" sceneC3 flagsFix 0 =
        Except.error ("ERROR: Repeated Spawn Index: " ++ toString k) ∧
      2 ≤ (spawnListOf sceneC3 0).count k) := by
  have hroom : ∀ o ∈ entMarkers sceneC3, ∀ p conv, entPropOf o = some (p, conv) →
      validA p.actor 0 = true → p.tiedRoom ≠ none := by
    intro o ho p conv hE _
    have hlist : entMarkers sceneC3 = [entMFix 10 1 (some 0), entMFix 11 1 (some 0)] := rfl
    rw [hlist] at ho
    rcases List.mem_cons.mp ho with rfl | ho'
    · simp only [entMFix, entPropOf, Option.some.injEq, Prod.mk.injEq] at hE
      obtain ⟨hp, -⟩ := hE
      subst hp
      simp
    · rcases List.mem_cons.mp ho' with rfl | ho''
      · simp only [entMFix, entPropOf, Option.some.injEq, Prod.mk.injEq] at hE
        obtain ⟨hp, -⟩ := hE
        subst hp
        simp
      · exact absurd ho'' (List.not_mem_nil o)
  exact ⟨by decide, c3_duplicate_spawn "tbl" sceneC3 flagsFix 0 hroom (by decide)⟩

/-- C2: with every valid entrance marker's tied room set, the table build
succeeds exactly when the collected spawn indices are the contiguous range
0..N-1 (any construction order); on success the entries are ordered by
ascending spawn index, on any violation the build fails. -/
theorem c2_contiguity (name : String) (scene : SObj) (flags : Flags) (hIdx : Nat)
    (hroom : ∀ o ∈ entMarkers scene, ∀ p conv, entPropOf o = some (p, conv) →
      validA p.actor hIdx = true → p.tiedRoom ≠ none) :
    (¬ ((∀ k ∈ spawnListOf scene hIdx, k < (spawnListOf scene hIdx).length) ∧
        (∀ k, k < (spawnListOf scene hIdx).length → k ∈ spawnListOf scene hIdx)) →
      exceptErr (SceneEntranceActors.new name scene flags hIdx) = true) ∧
    (((∀ k ∈ spawnListOf scene hIdx, k < (spawnListOf scene hIdx).length) ∧
      (∀ k, k < (spawnListOf scene hIdx).length → k ∈ spawnListOf scene hIdx)) →
      ∃ t, SceneEntranceActors.new name scene flags hIdx = Except.ok t ∧
        t.entries.map (fun e => e.spawnIndex) =
          (List.range (spawnListOf scene hIdx).length).map some) := by
  set L := spawnListOf scene hIdx with hL
  set n := L.length with hn
  have htot : ∀ a b : Nat, decide (a ≤ b) = false → decide (b ≤ a) = true := by
    intro a b h
    simp at h ⊢
    omega
  have htr : ∀ a b c : Nat, decide (a ≤ b) = true → decide (b ≤ c) = true →
      decide (a ≤ c) = true := by
    intro a b c h1 h2
    simp at h1 h2 ⊢
    omega
  have hCovPerm : ((∀ k ∈ L, k < n) ∧ (∀ k, k < n → k ∈ L)) → L.Perm (List.range n) := by
    rintro ⟨_, h2⟩
    have hsub : List.range n ⊆ L := fun k hk => h2 k (List.mem_range.mp hk)
    have hsp := (List.nodup_range n).subperm hsub
    exact (List.Subperm.perm_of_length_le hsp (by simp [hn])).symm
  have hsortPerm : ∀ m : List Nat,
      (isortK (fun a b => decide (a ≤ b)) m).Perm m := fun m => isortK_perm _ m
  constructor
  · intro hcov
    by_cases hnd : L.Nodup
    · obtain ⟨pairs, hok, hkeys, -⟩ :=
        collectEnt_ok flags hIdx (entMarkers scene) [] hroom
          (by simpa [spawnListOf, ← hL] using hnd)
      have hkeys' : pairs.map Prod.fst = L := by simpa [spawnListOf, ← hL] using hkeys
      have hterm : SceneEntranceActors.new name scene flags hIdx =
          (if (isortK (fun a b => decide (a.1 ≤ b.1)) pairs).map Prod.fst =
              List.range ((isortK (fun a b => decide (a.1 ≤ b.1)) pairs)).length then
            Except.ok ⟨name, (isortK (fun a b => decide (a.1 ≤ b.1)) pairs).map Prod.snd⟩
          else Except.error "ERROR: The spawn indices are not consecutive!") := by
        simp only [SceneEntranceActors.new, hok, List.nil_append]
      rw [hterm]
      rw [if_neg]
      · rfl
      · intro hC
        apply hcov
        have hlen : (isortK (fun a b => decide (a.1 ≤ b.1)) pairs).length = n := by
          rw [(isortK_perm _ pairs).length_eq]
          rw [← hkeys', List.length_map] at hn
          omega
        rw [map_fst_isortK pairs, hkeys', hlen] at hC
        have hperm2 : L.Perm (List.range n) := ((hsortPerm L).symm).trans (hC ▸ List.Perm.refl _)
        constructor
        · intro k hk
          exact List.mem_range.mp (hperm2.mem_iff.mp hk)
        · intro k hk
          exact hperm2.mem_iff.mpr (List.mem_range.mpr hk)
    · obtain ⟨k, herr, -⟩ :=
        collectEnt_dup flags hIdx (entMarkers scene) [] hroom (by simp)
          (by simpa [spawnListOf, ← hL] using hnd)
      simp [SceneEntranceActors.new, herr, exceptErr]
  · intro hcov
    have hperm : L.Perm (List.range n) := hCovPerm hcov
    have hnd : L.Nodup := (hperm.symm).nodup (List.nodup_range n)
    obtain ⟨pairs, hok, hkeys, hvals⟩ :=
      collectEnt_ok flags hIdx (entMarkers scene) [] hroom
        (by simpa [spawnListOf, ← hL] using hnd)
    have hkeys' : pairs.map Prod.fst = L := by simpa [spawnListOf, ← hL] using hkeys
    have hlen : (isortK (fun a b => decide (a.1 ≤ b.1)) pairs).length = n := by
      rw [(isortK_perm _ pairs).length_eq]
      rw [← hkeys', List.length_map] at hn
      omega
    have hsorted : (isortK (fun a b => decide (a ≤ b)) L).Sorted (· ≤ ·) :=
      (isortK_pairwise _ htot htr L).imp (fun h => by simpa using h)
    have heq : isortK (fun a b => decide (a ≤ b)) L = List.range n :=
      List.eq_of_perm_of_sorted ((hsortPerm L).trans hperm) hsorted (List.sorted_le_range n)
    have hcond : (isortK (fun a b => decide (a.1 ≤ b.1)) pairs).map Prod.fst =
        List.range ((isortK (fun a b => decide (a.1 ≤ b.1)) pairs)).length := by
      rw [map_fst_isortK pairs, hkeys', hlen, heq]
    refine ⟨⟨name, (isortK (fun a b => decide (a.1 ≤ b.1)) pairs).map Prod.snd⟩, ?_, ?_⟩
    · simp only [SceneEntranceActors.new, hok, List.nil_append]
      rw [if_pos hcond]
    · simp only [List.map_map]
      have hval2 : ∀ kv ∈ isortK (fun a b => decide (a.1 ≤ b.1)) pairs,
          ((fun e => e.spawnIndex) ∘ Prod.snd) kv = (some ∘ Prod.fst) kv := by
        intro kv hkv
        exact hvals kv ((isortK_perm _ pairs).mem_iff.mp hkv)
      rw [List.map_congr_left hval2, ← List.map_map, map_fst_isortK pairs, hkeys', heq]

theorem entMFix_room_ok (u s : Nat) (r : Int) : ∀ (p : EntranceProperty) conv,
    entPropOf (entMFix u s (some r)) = some (p, conv) → p.tiedRoom ≠ none := by
  intro p conv hE
  simp only [entMFix, entPropOf, Option.some.injEq, Prod.mk.injEq] at hE
  obtain ⟨hp, -⟩ := hE
  subst hp
  simp

theorem hroomC2good : ∀ o ∈ entMarkers sceneC2good, ∀ (p : EntranceProperty) conv,
    entPropOf o = some (p, conv) → validA p.actor 0 = true → p.tiedRoom ≠ none := by
  intro o ho p conv hE _
  have hlist : entMarkers sceneC2good =
      [entMFix 10 1 (some 0), entMFix 11 0 (some 0), entMFix 12 2 (some 0)] := rfl
  rw [hlist] at ho
  rcases List.mem_cons.mp ho with rfl | ho'
  · exact entMFix_room_ok _ _ _ p conv hE
  rcases List.mem_cons.mp ho' with rfl | ho''
  · exact entMFix_room_ok _ _ _ p conv hE
  rcases List.mem_cons.mp ho'' with rfl | ho3
  · exact entMFix_room_ok _ _ _ p conv hE
  · exact absurd ho3 (List.not_mem_nil o)

theorem hroomC2bad : ∀ o ∈ entMarkers sceneC2bad, ∀ (p : EntranceProperty) conv,
    entPropOf o = some (p, conv) → validA p.actor 0 = true → p.tiedRoom ≠ none := by
  intro o ho p conv hE _
  have hlist : entMarkers sceneC2bad =
      [entMFix 10 0 (some 0), entMFix 11 2 (some 0), entMFix 12 3 (some 0)] := rfl
  rw [hlist] at ho
  rcases List.mem_cons.mp ho with rfl | ho'
  · exact entMFix_room_ok _ _ _ p conv hE
  rcases List.mem_cons.mp ho' with rfl | ho''
  · exact entMFix_room_ok _ _ _ p conv hE
  rcases List.mem_cons.mp ho'' with rfl | ho3
  · exact entMFix_room_ok _ _ _ p conv hE
  · exact absurd ho3 (List.not_mem_nil o)

/-- C2 witness: spawn indices 1,0,2 build successfully and come out
ordered 0,1,2; spawn indices 0,2,3 make the build fail. -/
theorem c2_contiguity_witness :
    ((∀ k ∈ spawnListOf sceneC2good 0, k < (spawnListOf sceneC2good 0).length) ∧
      (∀ k, k < (spawnListOf sceneC2good 0).length → k ∈ spawnListOf sceneC2good 0)) ∧
    (∃ t, SceneEntranceActors.new "tbl" sceneC2good flagsFix 0 = Except.ok t ∧
      t.entries.map (fun e => e.spawnIndex) =
        (List.range (spawnListOf sceneC2good 0).length).map some) ∧
    (¬ ((∀ k ∈ spawnListOf sceneC2bad 0, k < (spawnListOf sceneC2bad 0).length) ∧
        (∀ k, k < (spawnListOf sceneC2bad 0).length → k ∈ spawnListOf sceneC2bad 0))) ∧
    exceptErr (SceneEntranceActors.new "tbl" sceneC2bad flagsFix 0) = true :=
  ⟨by decide,
   (c2_contiguity "tbl" sceneC2good flagsFix 0 hroomC2good).2 (by decide),
   by decide,
   (c2_contiguity "tbl" sceneC2bad flagsFix 0 hroomC2bad).1 (by decide)⟩

theorem mkTrans_err (flags : Flags) (k : Int) (p : TransitionActorProperty)
    (conv : Vec3i × Vec3i) (hcr : p.isRoomTransition = true)
    (hmiss : p.fromRoom = none ∨ p.toRoom = none) :
    mkTransitionActor flags k p conv =
      Except.error "ERROR: Missing room empty object assigned to transition." := by
  unfold mkTransitionActor
  rcases hmiss with hm | hm <;> rw [hcr] <;> simp [hm]

theorem buildTrans_err (flags : Flags) (hIdx : Nat) (m : List (Nat × SObj)) :
    ∀ ms : List SObj,
      (∃ o ∈ ms, ∃ p conv, transPropOf o = some (p, conv) ∧
        validA p.actor hIdx = true ∧ p.isRoomTransition = true ∧
        (p.fromRoom = none ∨ p.toRoom = none)) →
      exceptErr (buildTransEntries flags hIdx m ms) = true := by
  intro ms
  induction ms with
  | nil => rintro ⟨o, ho, -⟩; exact absurd ho (List.not_mem_nil o)
  | cons o₀ rest ih =>
    rintro ⟨o, ho, p, conv, hP, hv, hcr, hmiss⟩
    match hE : transPropOf o₀ with
    | none =>
      rcases List.mem_cons.mp ho with rfl | ho'
      · rw [hE] at hP; exact absurd hP (by simp)
      · simpa [buildTransEntries, hE] using ih ⟨o, ho', p, conv, hP, hv, hcr, hmiss⟩
    | some (p₀, conv₀) =>
      by_cases hv₀ : validA p₀.actor hIdx
      · cases hmk : mkTransitionActor flags (transKeyM m o₀) p₀ conv₀ with
        | error e => simp [buildTransEntries, hE, hv₀, hmk, exceptErr]
        | ok a =>
          rcases List.mem_cons.mp ho with rfl | ho'
          · rw [hE] at hP
            simp only [Option.some.injEq, Prod.mk.injEq] at hP
            obtain ⟨hp0, -⟩ := hP
            rw [mkTrans_err flags _ p₀ conv₀ (by rw [hp0]; exact hcr)
              (by rw [hp0]; exact hmiss)] at hmk
            exact absurd hmk (by simp)
          · have := ih ⟨o, ho', p, conv, hP, hv, hcr, hmiss⟩
            cases hb : buildTransEntries flags hIdx m rest with
            | error e => simp [buildTransEntries, hE, hv₀, hmk, hb, exceptErr]
            | ok l => rw [hb] at this; exact absurd this (by simp [exceptErr])
      · rcases List.mem_cons.mp ho with rfl | ho'
        · rw [hE] at hP
          simp only [Option.some.injEq, Prod.mk.injEq] at hP
          obtain ⟨hp0, -⟩ := hP
          rw [hp0] at hv₀
          exact absurd hv hv₀
        · simpa [buildTransEntries, hE, hv₀] using ih ⟨o, ho', p, conv, hP, hv, hcr, hmiss⟩

theorem collectEnt_err (flags : Flags) (hIdx : Nat) :
    ∀ (objs : List SObj) (acc : List (Nat × EntranceActor)),
      (∃ o ∈ objs, ∃ p conv, entPropOf o = some (p, conv) ∧
        validA p.actor hIdx = true ∧ p.tiedRoom = none) →
      exceptErr (collectEnt flags hIdx objs acc) = true := by
  intro objs
  induction objs with
  | nil => rintro acc ⟨o, ho, -⟩; exact absurd ho (List.not_mem_nil o)
  | cons o₀ rest ih =>
    rintro acc ⟨o, ho, p, conv, hP, hv, htr⟩
    match hE : entPropOf o₀ with
    | none =>
      rcases List.mem_cons.mp ho with rfl | ho'
      · rw [hE] at hP; exact absurd hP (by simp)
      · simpa [collectEnt, hE] using ih acc ⟨o, ho', p, conv, hP, hv, htr⟩
    | some (p₀, conv₀) =>
      by_cases hv₀ : validA p₀.actor hIdx
      · match htr₀ : p₀.tiedRoom with
        | none => simp [collectEnt, hE, hv₀, htr₀, exceptErr]
        | some ri =>
          rcases List.mem_cons.mp ho with rfl | ho'
          · rw [hE] at hP
            simp only [Option.some.injEq, Prod.mk.injEq] at hP
            obtain ⟨hp0, -⟩ := hP
            rw [hp0, htr] at htr₀
            exact absurd htr₀ (by simp)
          · by_cases hlk : (lookupA acc p₀.spawnIndex).isSome
            · simp [collectEnt, hE, hv₀, htr₀, hlk, exceptErr]
            · simpa [collectEnt, hE, hv₀, htr₀, hlk] using
                ih _ ⟨o, ho', p, conv, hP, hv, htr⟩
      · rcases List.mem_cons.mp ho with rfl | ho'
        · rw [hE] at hP
          simp only [Option.some.injEq, Prod.mk.injEq] at hP
          obtain ⟨hp0, -⟩ := hP
          rw [hp0] at hv₀
          exact absurd hv hv₀
        · simpa [collectEnt, hE, hv₀] using ih acc ⟨o, ho', p, conv, hP, hv, htr⟩

/-- C4: a room-crossing transition marker with an unset from/to room
reference, and an entrance marker with an unset tied room, each make the
whole table build fail with an error (no table value is produced, so no
entry ever carries the missing reference as a null field). -/
theorem c4_missing_room_refs :
    (∀ (name : String) (scene : SObj) (flags : Flags) (hIdx : Nat),
      ((transMarkers scene).all
        (fun o => (lookupA (transRoomMap scene) o.uid).isSome)) = true →
      (∃ o ∈ transMarkers scene, ∃ p conv, transPropOf o = some (p, conv) ∧
        validA p.actor hIdx = true ∧ p.isRoomTransition = true ∧
        (p.fromRoom = none ∨ p.toRoom = none)) →
      exceptErr (SceneTransitionActors.new name scene flags hIdx) = true) ∧
    (∀ (name : String) (scene : SObj) (flags : Flags) (hIdx : Nat),
      (∃ o ∈ entMarkers scene, ∃ p conv, entPropOf o = some (p, conv) ∧
        validA p.actor hIdx = true ∧ p.tiedRoom = none) →
      exceptErr (SceneEntranceActors.new name scene flags hIdx) = true) := by
  constructor
  · intro name scene flags hIdx hmap ⟨o, ho, hbad⟩
    have hmem : o ∈ isortK
        (fun a b => decide (transKeyM (transRoomMap scene) a ≤
          transKeyM (transRoomMap scene) b)) (transMarkers scene) :=
      (isortK_perm _ (transMarkers scene)).mem_iff.mpr ho
    have herr := buildTrans_err flags hIdx (transRoomMap scene)
      (isortK (fun a b => decide (transKeyM (transRoomMap scene) a ≤
        transKeyM (transRoomMap scene) b)) (transMarkers scene)) ⟨o, hmem, hbad⟩
    unfold SceneTransitionActors.new
    rw [if_pos hmap]
    revert herr
    cases buildTransEntries flags hIdx (transRoomMap scene)
        (isortK (fun a b => decide (transKeyM (transRoomMap scene) a ≤
          transKeyM (transRoomMap scene) b)) (transMarkers scene)) with
    | error e => intro; rfl
    | ok l => intro h; exact absurd h (by simp [exceptErr])
  · intro name scene flags hIdx ⟨o, ho, hbad⟩
    have herr := collectEnt_err flags hIdx (entMarkers scene) [] ⟨o, ho, hbad⟩
    unfold SceneEntranceActors.new
    revert herr
    cases collectEnt flags hIdx (entMarkers scene) [] with
    | error e => intro; rfl
    | ok l => intro h; exact absurd h (by simp [exceptErr])

/-- C4 witness: a concrete cross-room marker with unset toRoom and a
concrete entrance marker with unset tied room each abort their builds. -/
theorem c4_missing_room_refs_witness :
    ((transMarkers sceneC4t).all
      (fun o => (lookupA (transRoomMap sceneC4t) o.uid).isSome)) = true ∧
    exceptErr (SceneTransitionActors.new "t" sceneC4t flagsFix 0) = true ∧
    exceptErr (SceneEntranceActors.new "e" sceneC4e flagsFix 0) = true :=
  ⟨by decide,
   c4_missing_room_refs.1 "t" sceneC4t flagsFix 0 (by decide)
     ⟨transMCrossFix, List.Mem.head _, transPropCross, convFix, rfl, rfl, rfl, Or.inr rfl⟩,
   c4_missing_room_refs.2 "e" sceneC4e flagsFix 0
     ⟨entMNoRoomFix, List.Mem.head _, entPropNoRoom, convFix, rfl, rfl, rfl⟩⟩

theorem lookupA_innerFold (r : SObj) (k : Nat) :
    ∀ (cs : List SObj) (m : List (Nat × SObj)),
      lookupA (cs.foldl (fun m c => (SObj.uid c, r) :: m) m) k =
        if cs.any (fun c => c.uid = k) then some r else lookupA m k := by
  intro cs
  induction cs with
  | nil => intro m; simp
  | cons c cs' ih =>
    intro m
    simp only [List.foldl_cons, List.any_cons]
    rw [ih ((SObj.uid c, r) :: m)]
    have hstep : lookupA ((SObj.uid c, r) :: m) k =
        if SObj.uid c = k then some r else lookupA m k := rfl
    by_cases hany : (cs'.any fun x => decide (x.uid = k)) = true <;>
      by_cases hck : c.uid = k <;>
        simp [hany, hck, hstep, lookupA]

theorem lookupA_outerFold_none (k : Nat) :
    ∀ (rooms : List SObj) (m : List (Nat × SObj)),
      (∀ r ∈ rooms, (roomTransChildren r).any (fun c => c.uid = k) = false) →
      lookupA (rooms.foldl (fun m r => (roomTransChildren r).foldl
        (fun m c => (SObj.uid c, r) :: m) m) m) k = lookupA m k := by
  intro rooms
  induction rooms with
  | nil => intro m _; rfl
  | cons r₀ rest ih =>
    intro m hno
    simp only [List.foldl_cons]
    rw [ih _ (fun r hr => hno r (List.mem_cons_of_mem r₀ hr)),
      lookupA_innerFold r₀ k _ m, hno r₀ (List.mem_cons_self r₀ rest)]
    simp

theorem lookupA_outerFold_single (k : Nat) (rT : SObj) :
    ∀ (rooms : List SObj) (m : List (Nat × SObj)),
      rooms.filter (fun r => (roomTransChildren r).any (fun c => c.uid = k)) = [rT] →
      lookupA (rooms.foldl (fun m r => (roomTransChildren r).foldl
        (fun m c => (SObj.uid c, r) :: m) m) m) k = some rT := by
  intro rooms
  induction rooms with
  | nil => intro m hfil; exact absurd hfil (by simp)
  | cons r₀ rest ih =>
    intro m hfil
    rw [List.filter_cons] at hfil
    by_cases h₀ : ((roomTransChildren r₀).any (fun c => c.uid = k)) = true
    · rw [if_pos h₀] at hfil
      have h1 : r₀ = rT := by injection hfil
      have h2 : rest.filter (fun r => (roomTransChildren r).any (fun c => c.uid = k)) = [] := by
        injection hfil with _ h
      have hno : ∀ r ∈ rest, (roomTransChildren r).any (fun c => c.uid = k) = false := by
        intro r hr
        cases hc : (roomTransChildren r).any (fun c => c.uid = k) with
        | false => rfl
        | true =>
          have hmemf : r ∈ rest.filter
              (fun r => (roomTransChildren r).any (fun c => c.uid = k)) :=
            List.mem_filter.mpr ⟨hr, hc⟩
          rw [h2] at hmemf
          exact absurd hmemf (List.not_mem_nil r)
      simp only [List.foldl_cons]
      rw [lookupA_outerFold_none k rest _ hno, lookupA_innerFold r₀ k _ m, if_pos h₀, h1]
    · rw [if_neg h₀] at hfil
      simp only [List.foldl_cons]
      exact ih _ hfil

theorem transRoomMap_lookup_single (scene : SObj) (k : Nat) (rT : SObj)
    (h : (roomsOf scene).filter
      (fun r => (roomTransChildren r).any (fun c => c.uid = k)) = [rT]) :
    lookupA (transRoomMap scene) k = some rT :=
  lookupA_outerFold_single k rT (roomsOf scene) [] h

/-- C6 counterexample: a valid same-room transition marker in a room of
index 7 builds an entry whose isRoomTransition field is left unset (None),
not false: the builder never assigns that field. -/
theorem c6_counterexample :
    SceneTransitionActors.new "gT" sceneC6 flagsFix 0 =
      Except.ok ⟨"gT",
        [{ name := "Door", id := "ACTOR_EN_DOOR", pos := ⟨4, 5, 6⟩,
           rot := "DEG_TO_BINANG(45.000)", params := "0x0001",
           isRoomTransition := none, roomFrom := some 7, roomTo := some 7,
           cameraFront := some "CAM_F", cameraBack := some "CAM_B" }]⟩ ∧
    (none : Option Bool) ≠ some false :=
  ⟨by rfl, by decide⟩

/-- C6 (amended): a valid transition marker not flagged as room-crossing,
owned by exactly one room, resolves through the actorToRoom mapping to
that room and builds an entry whose roomFrom and roomTo both equal that
room's index, whose camera values are the marker's two camera properties
paired with that index, and whose isRoomTransition field is left unset
(None, falsy) rather than assigned false. -/
theorem c6_same_room (scene : SObj) (flags : Flags) (hIdx : Nat) (o : SObj)
    (p : TransitionActorProperty) (conv : Vec3i × Vec3i) (rT : SObj)
    (_hP : transPropOf o = some (p, conv))
    (_hvalid : validA p.actor hIdx = true)
    (hnc : p.isRoomTransition = false)
    (hown : (roomsOf scene).filter
      (fun r => (roomTransChildren r).any (fun c => c.uid = o.uid)) = [rT]) :
    lookupA (transRoomMap scene) o.uid = some rT ∧
    ∃ e, mkTransitionActor flags (transKeyM (transRoomMap scene) o) p conv =
        Except.ok e ∧
      e.roomFrom = some (roomIdxOf rT) ∧ e.roomTo = some (roomIdxOf rT) ∧
      e.cameraFront = some p.cameraTransitionFront ∧
      e.cameraBack = some p.cameraTransitionBack ∧
      e.isRoomTransition = none := by
  have hlk := transRoomMap_lookup_single scene o.uid rT hown
  refine ⟨hlk, ?_⟩
  have hkey : transKeyM (transRoomMap scene) o = roomIdxOf rT := by
    unfold transKeyM
    rw [hlk]
  unfold mkTransitionActor
  rw [hnc]
  exact ⟨_, rfl, by rw [hkey], by rw [hkey], rfl, rfl, rfl⟩

/-- C6 witness: the amended statement at the concrete one-room scene. -/
theorem c6_same_room_witness :
    transPropOf (transMFix 10 false none none) = some (transPropFix, convFix) ∧
    validA transPropFix.actor 0 = true ∧
    transPropFix.isRoomTransition = false ∧
    (roomsOf sceneC6).filter
      (fun r => (roomTransChildren r).any
        (fun c => c.uid = (transMFix 10 false none none).uid)) =
      [roomFix 1 7 [transMFix 10 false none none]] ∧
    (lookupA (transRoomMap sceneC6) (transMFix 10 false none none).uid =
      some (roomFix 1 7 [transMFix 10 false none none]) ∧
    ∃ e, mkTransitionActor flagsFix
        (transKeyM (transRoomMap sceneC6) (transMFix 10 false none none))
        transPropFix convFix = Except.ok e ∧
      e.roomFrom = some (roomIdxOf (roomFix 1 7 [transMFix 10 false none none])) ∧
      e.roomTo = some (roomIdxOf (roomFix 1 7 [transMFix 10 false none none])) ∧
      e.cameraFront = some transPropFix.cameraTransitionFront ∧
      e.cameraBack = some transPropFix.cameraTransitionBack ∧
      e.isRoomTransition = none) :=
  ⟨rfl, rfl, rfl, rfl,
   c6_same_room sceneC6 flagsFix 0 (transMFix 10 false none none) transPropFix convFix
     (roomFix 1 7 [transMFix 10 false none none]) rfl rfl rfl rfl⟩

/-- C8: whenever the transition table build succeeds, its entries are
produced, in order, from a marker sequence that is a permutation of all
the scene's transition markers sorted by the owning-room index
(actorToRoom key), independent of the scene graph's iteration order. -/
theorem c8_sorted_by_owning_room (name : String) (scene : SObj) (flags : Flags)
    (hIdx : Nat) (t : SceneTransitionActors)
    (hok : SceneTransitionActors.new name scene flags hIdx = Except.ok t) :
    ∃ ms : List SObj,
      ms.Pairwise (fun a b =>
        transKeyM (transRoomMap scene) a ≤ transKeyM (transRoomMap scene) b) ∧
      ms.Perm (transMarkers scene) ∧
      buildTransEntries flags hIdx (transRoomMap scene) ms = Except.ok t.entries := by
  have htot : ∀ a b : SObj, decide (transKeyM (transRoomMap scene) a ≤
      transKeyM (transRoomMap scene) b) = false →
      decide (transKeyM (transRoomMap scene) b ≤
        transKeyM (transRoomMap scene) a) = true := by
    intro a b h
    simp at h ⊢
    omega
  have htr : ∀ a b c : SObj, decide (transKeyM (transRoomMap scene) a ≤
      transKeyM (transRoomMap scene) b) = true →
      decide (transKeyM (transRoomMap scene) b ≤
        transKeyM (transRoomMap scene) c) = true →
      decide (transKeyM (transRoomMap scene) a ≤
        transKeyM (transRoomMap scene) c) = true := by
    intro a b c h1 h2
    simp at h1 h2 ⊢
    omega
  refine ⟨isortK (fun a b => decide (transKeyM (transRoomMap scene) a ≤
      transKeyM (transRoomMap scene) b)) (transMarkers scene),
    (isortK_pairwise _ htot htr _).imp (fun h => by simpa using h),
    isortK_perm _ _, ?_⟩
  unfold SceneTransitionActors.new at hok
  by_cases hguard : ((transMarkers scene).all
      (fun o => (lookupA (transRoomMap scene) o.uid).isSome)) = true
  · rw [if_pos hguard] at hok
    cases hb : buildTransEntries flags hIdx (transRoomMap scene)
        (isortK (fun a b => decide (transKeyM (transRoomMap scene) a ≤
          transKeyM (transRoomMap scene) b)) (transMarkers scene)) with
    | error e =>
      rw [hb] at hok
      exact absurd hok (by simp)
    | ok l =>
      rw [hb] at hok
      simp only [Except.ok.injEq] at hok
      rw [← hok]
  · rw [if_neg hguard] at hok
    exact absurd hok (by simp)

/-- C8 witness: a scene whose rooms appear in index order 5 then 3 still
yields entries ordered by owning-room index 3 then 5. -/
theorem c8_sorted_by_owning_room_witness :
    SceneTransitionActors.new "gT" sceneC8 flagsFix 0 = Except.ok tC8 ∧
    ∃ ms : List SObj,
      ms.Pairwise (fun a b =>
        transKeyM (transRoomMap sceneC8) a ≤ transKeyM (transRoomMap sceneC8) b) ∧
      ms.Perm (transMarkers sceneC8) ∧
      buildTransEntries flagsFix 0 (transRoomMap sceneC8) ms = Except.ok tC8.entries :=
  ⟨by rfl, c8_sorted_by_owning_room "gT" sceneC8 flagsFix 0 tC8 (by rfl)⟩
